import Mathlib

/-!
Shallow embedding of the dexios core: the header codec
(src/src/header.rs), the header subcommands (src/src/subcommands/header.rs)
and the encryption/decryption pipelines, over bytes as `List Nat`.
External cryptographic primitives (the AEAD crates and the KDF) and parts of
the crate not present under src/ are modelled from the specification; their
doc comments say so explicitly.
-/

deriving instance DecidableEq for Except

namespace Dexios

/-- Bytes `[a .. a+len)` of `l` — the `&buf[a..a+len]` idiom. -/
def sliceLen (l : List Nat) (a len : Nat) : List Nat :=
  (l.drop a).take len

/-- Header versions, from src/src/header.rs (`HeaderVersion`). -/
inductive HeaderVersion
| V1
| V2
| V3
| V4
deriving DecidableEq, Repr

/-- Numeric rank of a version; used to model the `<` comparison in
`update_key` (src/src/subcommands/header.rs line 42). -/
def HeaderVersion.num : HeaderVersion → Nat
| .V1 => 1
| .V2 => 2
| .V3 => 3
| .V4 => 4

/-- AEAD algorithms, from src/src/primitives.rs (`Algorithm`). -/
inductive Algorithm
| Aes256Gcm
| XChaCha20Poly1305
| DeoxysII256
deriving DecidableEq, Repr

/-- Encryption modes, from src/src/primitives.rs (`Mode`). -/
inductive Mode
| MemoryMode
| StreamMode
deriving DecidableEq, Repr

/-- The header type triple, from src/src/header.rs (`HeaderType`). -/
structure HeaderType where
  version : HeaderVersion
  algorithm : Algorithm
  mode : Mode
deriving DecidableEq, Repr

/-- Nonce length, from src/src/header.rs (`calc_nonce_len`): 24/12/15 bytes
by algorithm, minus 4 in stream mode. -/
def calcNonceLen (ht : HeaderType) : Nat :=
  let n : Nat :=
    match ht.algorithm with
    | .XChaCha20Poly1305 => 24
    | .Aes256Gcm => 12
    | .DeoxysII256 => 15
  if ht.mode = Mode.StreamMode then n - 4 else n

/-- The header record, from src/src/header.rs (`Header`). -/
structure Header where
  headerType : HeaderType
  nonce : List Nat
  salt : List Nat
  masterKeyEncrypted : Option (List Nat)
  masterKeyNonce : Option (List Nat)
deriving DecidableEq, Repr

/-- Version tag bytes, from `Header::serialize_version`. -/
def serializeVersionTag (v : HeaderVersion) : List Nat :=
  match v with
  | .V1 => [0xDE, 0x01]
  | .V2 => [0xDE, 0x02]
  | .V3 => [0xDE, 0x03]
  | .V4 => [0xDE, 0x04]

/-- Algorithm tag bytes, from `Header::serialize_algorithm`. -/
def serializeAlgorithmTag (a : Algorithm) : List Nat :=
  match a with
  | .XChaCha20Poly1305 => [0x0E, 0x01]
  | .Aes256Gcm => [0x0E, 0x02]
  | .DeoxysII256 => [0x0E, 0x03]

/-- Mode tag bytes, from `Header::serialize_mode`. -/
def serializeModeTag (m : Mode) : List Nat :=
  match m with
  | .StreamMode => [0x0C, 0x01]
  | .MemoryMode => [0x0C, 0x02]

/-- The six tag bytes of a header, from `Header::get_tag`. -/
def Header.tagBytes (h : Header) : List Nat :=
  serializeVersionTag h.headerType.version ++
    serializeAlgorithmTag h.headerType.algorithm ++
    serializeModeTag h.headerType.mode

/-- Serialization of a V3 header, from `Header::serialize_v3`:
tag, salt, 16 reserved zeros, nonce, zero padding to 64 bytes. -/
def Header.serializeV3 (h : Header) : List Nat :=
  h.tagBytes ++ h.salt ++ List.replicate 16 0 ++ h.nonce ++
    List.replicate (26 - calcNonceLen h.headerType) 0

/-- Serialization of a V4 header, from `Header::serialize_v4`:
tag, salt, nonce, zero padding to 48, wrapped master key, master-key nonce,
zero padding to 128 bytes. The source unwraps the two `Option` fields
(panicking when absent); here the absent case serializes the empty list, and
every theorem about V4 serialization hypothesizes the fields present. -/
def Header.serializeV4 (h : Header) : List Nat :=
  h.tagBytes ++ h.salt ++ h.nonce ++
    List.replicate (26 - calcNonceLen h.headerType) 0 ++
    h.masterKeyEncrypted.getD [] ++ h.masterKeyNonce.getD [] ++
    List.replicate
      (32 - calcNonceLen ⟨h.headerType.version, h.headerType.algorithm, Mode.MemoryMode⟩) 0

/-- Header serialization, from `Header::serialize`: V1 and V2 are refused,
V3 and V4 serialize to their fixed layouts. -/
def Header.serialize (h : Header) : Except String (List Nat) :=
  match h.headerType.version with
  | .V1 => .error "Serializing V1 headers has been deprecated"
  | .V2 => .error "Serializing V2 headers has been deprecated"
  | .V3 => .ok h.serializeV3
  | .V4 => .ok h.serializeV4

/-- On-disk header size by version, from `Header::deserialize` /
`Header::get_size`: 64 bytes below V4, 128 bytes for V4. -/
def headerLength (v : HeaderVersion) : Nat :=
  match v with
  | .V1 | .V2 | .V3 => 64
  | .V4 => 128

/-- Header size of a header value, from `Header::get_size`. -/
def Header.getSize (h : Header) : Nat :=
  headerLength h.headerType.version

/-- Version tag recognition inside `Header::deserialize`. -/
def parseVersion (b : List Nat) : Option HeaderVersion :=
  if b = [0xDE, 0x01] then some .V1
  else if b = [0xDE, 0x02] then some .V2
  else if b = [0xDE, 0x03] then some .V3
  else if b = [0xDE, 0x04] then some .V4
  else none

/-- Algorithm tag recognition inside `Header::deserialize`. -/
def parseAlgorithm (b : List Nat) : Option Algorithm :=
  if b = [0x0E, 0x01] then some .XChaCha20Poly1305
  else if b = [0x0E, 0x02] then some .Aes256Gcm
  else if b = [0x0E, 0x03] then some .DeoxysII256
  else none

/-- Mode tag recognition inside `Header::deserialize`. -/
def parseMode (b : List Nat) : Option Mode :=
  if b = [0x0C, 0x01] then some .StreamMode
  else if b = [0x0C, 0x02] then some .MemoryMode
  else none

/-- Header deserialization, from `Header::deserialize`. The reader is the
byte list `bytes`; the source peeks two version bytes, selects the header
size from the version, reads that many bytes into a buffer, and parses the
fields from fixed offsets of the buffer; sequential `read_exact` calls on the
in-memory cursor are rendered as slices at the cumulative offsets. Returns
the header and the AAD: empty for V1/V2, the whole 64-byte buffer for V3,
bytes `[0..48) ++ [96+m..128)` for V4 where `m` is the master-key nonce
length. -/
def Header.deserialize (bytes : List Nat) : Except String (Header × List Nat) :=
  if bytes.length < 2 then .error "Unable to read version from the header"
  else
    match parseVersion (bytes.take 2) with
    | none => .error "Error getting version from header"
    | some version =>
      if bytes.length < headerLength version then
        .error "Unable to read full bytes of the header"
      else
        match parseAlgorithm (sliceLen (bytes.take (headerLength version)) 2 2) with
        | none => .error "Error getting encryption mode from header"
        | some algorithm =>
          match parseMode (sliceLen (bytes.take (headerLength version)) 4 2) with
          | none => .error "Error getting cipher mode from header"
          | some mode =>
            match version with
            | .V1 =>
              .ok (⟨⟨.V1, algorithm, mode⟩,
                sliceLen (bytes.take 64) 38 (calcNonceLen ⟨.V1, algorithm, mode⟩),
                sliceLen (bytes.take 64) 6 16, none, none⟩, [])
            | .V2 =>
              .ok (⟨⟨.V2, algorithm, mode⟩,
                sliceLen (bytes.take 64) 22 (calcNonceLen ⟨.V2, algorithm, mode⟩),
                sliceLen (bytes.take 64) 6 16, none, none⟩, [])
            | .V3 =>
              .ok (⟨⟨.V3, algorithm, mode⟩,
                sliceLen (bytes.take 64) 38 (calcNonceLen ⟨.V3, algorithm, mode⟩),
                sliceLen (bytes.take 64) 6 16, none, none⟩, bytes.take 64)
            | .V4 =>
              .ok (⟨⟨.V4, algorithm, mode⟩,
                sliceLen (bytes.take 128) 22 (calcNonceLen ⟨.V4, algorithm, mode⟩),
                sliceLen (bytes.take 128) 6 16,
                some (sliceLen (bytes.take 128) 48 48),
                some (sliceLen (bytes.take 128) 96
                  (calcNonceLen ⟨.V4, algorithm, Mode.MemoryMode⟩))⟩,
                (bytes.take 128).take 48 ++ (bytes.take 128).drop
                  (96 + calcNonceLen ⟨.V4, algorithm, Mode.MemoryMode⟩))

/-- AAD construction from a header value, from `Header::create_aad`:
refused for V1/V2; for V3 the serialized header; for V4 the tag bytes, salt,
nonce and both zero paddings, excluding the wrapped master key and its
nonce. -/
def Header.createAad (h : Header) : Except String (List Nat) :=
  match h.headerType.version with
  | .V1 => .error "Serializing V1 headers has been deprecated"
  | .V2 => .error "Serializing V2 headers has been deprecated"
  | .V3 => .ok h.serializeV3
  | .V4 =>
    .ok (h.tagBytes ++ h.salt ++ h.nonce ++
      List.replicate (26 - calcNonceLen h.headerType) 0 ++
      List.replicate
        (32 - calcNonceLen ⟨h.headerType.version, h.headerType.algorithm, Mode.MemoryMode⟩) 0)

/-- Header write, from `Header::write`: serializes and hands the bytes to a
single `Write::write` call whose returned count is ignored. The `Write`
contract allows the writer to accept fewer bytes than offered; `accepted` is
the count the writer accepts in that one call, and the result is the byte
sequence actually written. -/
def Header.write (h : Header) (accepted : Nat) : Except String (List Nat) :=
  match h.serialize with
  | .error e => .error e
  | .ok bytes => .ok (bytes.take accepted)

/-- Streaming block size, from src/src/primitives.rs (`BLOCK_SIZE`). -/
def BLOCK_SIZE : Nat := 1048576

/-- Numeric index of an algorithm, used only to separate the algorithms
inside the modelled authentication tag. -/
def Algorithm.index : Algorithm → Nat
| .XChaCha20Poly1305 => 1
| .Aes256Gcm => 2
| .DeoxysII256 => 3

/-- Modelled from the spec: the 16-byte authentication tag of the AEAD
primitives (the aes-gcm, chacha20poly1305 and deoxys crates behind
`Ciphers`, which is not under src/). Per the spec glossary, an AEAD binds
key, nonce and AAD into the tag; the mix below is an idealized deterministic
stand-in that depends on all of them and on the message. -/
def aeadTag (alg : Algorithm) (key nonce aad msg : List Nat) : List Nat :=
  List.replicate 16
    ((alg.index + key.sum * 3 + nonce.sum * 5 + aad.sum * 7 + msg.sum * 11 +
      msg.length * 13) % 256)

/-- Modelled from the spec: one-shot AEAD encryption (`Ciphers::encrypt`,
not under src/). The spec fixes the ciphertext length at message length
plus 16; the ciphertext is the message followed by the tag. -/
def cipherEncrypt (alg : Algorithm) (key nonce aad msg : List Nat) : List Nat :=
  msg ++ aeadTag alg key nonce aad msg

/-- Modelled from the spec: one-shot AEAD decryption (`Ciphers::decrypt`,
not under src/): strip the 16-byte tag, recompute it, and refuse the
ciphertext unless it matches. -/
def cipherDecrypt (alg : Algorithm) (key nonce aad ct : List Nat) :
    Except String (List Nat) :=
  if ct.length < 16 then .error "Unable to decrypt the data"
  else
    let msg := ct.take (ct.length - 16)
    if ct = msg ++ aeadTag alg key nonce aad msg then .ok msg
    else .error "Unable to decrypt the data"

/-- Modelled from the spec: the password-to-key derivation (`balloon_hash` /
`argon2_hash` in dexios_core key.rs, not under src/). Per the spec it is a
deterministic 32-byte derivation from the raw key and the salt. -/
def balloonHash (raw salt : List Nat) : List Nat :=
  List.replicate 32 ((raw.sum * 3 + salt.sum * 5 + raw.length) % 256)

/-- Modelled from the spec: the V4 memory-mode encryption pipeline
(`encrypt_bytes_memory_mode`; src/ carries only pre-V4 revisions of it, in
src/src/encrypt/crypto.rs and src/src/crypto/encrypt.rs). Per the spec:
derive the hashed key from raw key and salt, wrap a fresh master key under
it with empty AAD, build the V4 header, compute the AAD with `create_aad`,
one-shot encrypt the plaintext under the master key and data nonce with that
AAD, and emit the serialized header followed by the ciphertext. The random
draws (salt, data nonce, master key, master-key nonce) are arguments. -/
def encryptBytesMemoryMode (alg : Algorithm)
    (plaintext rawKey salt dataNonce masterKey mkNonce : List Nat) :
    Except String (List Nat) :=
  let hashedKey := balloonHash rawKey salt
  let wrappedMk := cipherEncrypt alg hashedKey mkNonce [] masterKey
  let header : Header :=
    ⟨⟨.V4, alg, Mode.MemoryMode⟩, dataNonce, salt, some wrappedMk, some mkNonce⟩
  match header.createAad with
  | .error e => .error e
  | .ok aad =>
    match header.serialize with
    | .error e => .error e
    | .ok hb => .ok (hb ++ cipherEncrypt alg masterKey dataNonce aad plaintext)

/-- Modelled from the spec: the memory-mode decryption pipeline
(`decrypt_bytes_memory_mode`; src/ carries only the pre-V4 revision in
src/src/decrypt/crypto.rs). Per the spec: deserialize the header capturing
the AAD, derive the hashed key from the raw key and the header salt; for V4
unwrap the master key with empty AAD (failing with the key-decrypt error)
and one-shot decrypt the remaining bytes under it with the captured AAD; for
pre-V4 headers the hashed key is the data key directly. -/
def decryptBytesMemoryMode (file rawKey : List Nat) : Except String (List Nat) :=
  match Header.deserialize file with
  | .error e => .error e
  | .ok (header, aad) =>
    let hashedKey := balloonHash rawKey header.salt
    let ct := file.drop header.getSize
    match header.masterKeyEncrypted, header.masterKeyNonce with
    | some wrapped, some mkNonce =>
      match cipherDecrypt header.headerType.algorithm hashedKey mkNonce [] wrapped with
      | .error _ => .error "Unable to decrypt the master key"
      | .ok masterKey =>
        cipherDecrypt header.headerType.algorithm masterKey header.nonce aad ct
    | _, _ =>
      cipherDecrypt header.headerType.algorithm hashedKey header.nonce aad ct

/-- State of the streaming AEAD, modelled from the spec: the `StreamLE31`
construction appends a 31-bit little-endian counter and a last-block flag to
the base nonce (`EncryptionStreams`, not under src/). -/
structure StreamState where
  alg : Algorithm
  key : List Nat
  nonce : List Nat
  counter : Nat
deriving DecidableEq, Repr

/-- Modelled from the spec: the per-block nonce of `StreamLE31` — base nonce
followed by four bytes holding the little-endian 31-bit counter and the
last-block flag in the top bit. -/
def streamBlockNonce (st : StreamState) (last : Bool) : List Nat :=
  st.nonce ++
    [st.counter % 256, st.counter / 256 % 256, st.counter / 65536 % 256,
      st.counter / 16777216 % 128 + (if last then 128 else 0)]

/-- Modelled from the spec: `encrypt_next` of the streaming AEAD — encrypt
one block under the current counter with the flag clear, and advance the
counter. -/
def encryptNext (st : StreamState) (aad msg : List Nat) : List Nat × StreamState :=
  (cipherEncrypt st.alg st.key (streamBlockNonce st false) aad msg,
    { st with counter := st.counter + 1 })

/-- Modelled from the spec: `encrypt_last` of the streaming AEAD — encrypt
the final (possibly empty) block with the last-block flag set, consuming the
stream. -/
def encryptLast (st : StreamState) (aad msg : List Nat) : List Nat :=
  cipherEncrypt st.alg st.key (streamBlockNonce st true) aad msg

/-- The block loop of `encrypt_bytes_stream_mode`
(src/src/crypto/encrypt.rs lines 139-187): read `BLOCK_SIZE`-byte chunks; a
full chunk goes to `encrypt_next`, and the first short (possibly empty) read
goes to `encrypt_last`, which ends the loop. File reads are modelled as
returning full blocks until the tail. Each element of the result is one
call's output ciphertext, tagged with whether it came from `encrypt_last`. -/
def encryptStreamLoop (st : StreamState) (aad data : List Nat) :
    List (Bool × List Nat) :=
  if _h : data.length < BLOCK_SIZE then
    [(true, encryptLast st aad data)]
  else
    (false, (encryptNext st aad (data.take BLOCK_SIZE)).1) ::
      encryptStreamLoop (encryptNext st aad (data.take BLOCK_SIZE)).2 aad
        (data.drop BLOCK_SIZE)
termination_by data.length
decreasing_by
  simp only [List.length_drop]
  simp only [BLOCK_SIZE] at *
  omega

/-- The dump subcommand, from src/src/subcommands/header.rs (`dump`): read
the first 64 bytes of the input file, refuse unless they deserialize as a
header, and copy exactly those 64 bytes to the output. -/
def dump (file : List Nat) : Except String (List Nat) :=
  if file.length < 64 then .error "Unable to read header from file"
  else
    let header := file.take 64
    match Header.deserialize header with
    | .error _ => .error "File does not contain a valid Dexios header - exiting"
    | .ok _ => .ok header

/-- The strip subcommand, from src/src/subcommands/header.rs (`strip`):
deserialize the header straight from the file handle (leaving the cursor at
the parsed header length, 64 or 128), seek back 64 bytes, and overwrite 64
bytes with zeros. The result is the file contents afterwards. -/
def strip (file : List Nat) : Except String (List Nat) :=
  match Header.deserialize file with
  | .error _ => .error "File does not contain a valid Dexios header - exiting"
  | .ok (h, _) =>
    let pos := headerLength h.headerType.version
    .ok (file.take (pos - 64) ++ List.replicate 64 0 ++ file.drop pos)

/-- Key rotation, from src/src/subcommands/header.rs (`update_key`):
deserialize the header from the file; refuse below V4 before touching the
file; unwrap the master key under the old hashed key with empty AAD; copy it
into a fresh 32-byte buffer; re-wrap it under the new hashed key and a fresh
nonce; and overwrite the header in place, leaving the rest of the file
untouched. The raw keys and the freshly generated master-key nonce are
arguments; `Ciphers` and `balloon_hash` are the spec-modelled primitives
above. On any error the file is unchanged (the source writes only at the
very end). The source unwraps the master-key fields, which a V4 header
always carries; the impossible absent case is rendered as an error. -/
def updateKey (file rawOld rawNew newMkNonce : List Nat) :
    Except String (List Nat) :=
  match Header.deserialize file with
  | .error e => .error e
  | .ok (header, _) =>
    if header.headerType.version.num < HeaderVersion.num .V4 then
      .error "Updating a key is not supported in header versions below V4."
    else
      match header.masterKeyEncrypted, header.masterKeyNonce with
      | some mke, some mkn =>
        let keyOld := balloonHash rawOld header.salt
        let keyNew := balloonHash rawNew header.salt
        match cipherDecrypt header.headerType.algorithm keyOld mkn [] mke with
        | .error _ =>
          .error "Unable to decrypt your master key (maybe you supplied a wrong key?)"
        | .ok mkDec =>
          let masterKey := (mkDec ++ List.replicate (32 - mkDec.length) 0).take 32
          let mkeNew :=
            cipherEncrypt header.headerType.algorithm keyNew newMkNonce [] masterKey
          let headerNew : Header :=
            ⟨header.headerType, header.nonce, header.salt, some mkeNew, some newMkNonce⟩
          match headerNew.serialize with
          | .error e => .error e
          | .ok hb => .ok (hb ++ file.drop hb.length)
      | _, _ => .error "V4 header without master key fields"

/-- Well-formed V1 (and, with the V3 tag, V3) header layout as read by
`Header::deserialize`: tag, salt at 6, a 16-byte reserved region at 22, the
nonce at 38, padding to 64. The reserved and padding regions are arguments
so that their contents can vary. -/
def layoutV1 (vtag : List Nat) (alg : Algorithm) (mode : Mode)
    (salt resv nonce pad : List Nat) : List Nat :=
  vtag ++ serializeAlgorithmTag alg ++ serializeModeTag mode ++
    salt ++ resv ++ nonce ++ pad

/-- Well-formed V2 header layout as read by `Header::deserialize`: tag, salt
at 6, nonce at 22, padding to 48, a 16-byte trailing region to 64. -/
def layoutV2 (alg : Algorithm) (mode : Mode)
    (salt nonce pad1 pad2 : List Nat) : List Nat :=
  serializeVersionTag .V2 ++ serializeAlgorithmTag alg ++ serializeModeTag mode ++
    salt ++ nonce ++ pad1 ++ pad2

/-- Well-formed V4 header layout as read by `Header::deserialize`: tag, salt
at 6, nonce at 22, padding to 48, wrapped master key at 48, master-key nonce
at 96, padding to 128. -/
def layoutV4 (alg : Algorithm) (mode : Mode)
    (salt nonce pad1 mke mkn pad2 : List Nat) : List Nat :=
  serializeVersionTag .V4 ++ serializeAlgorithmTag alg ++ serializeModeTag mode ++
    salt ++ nonce ++ pad1 ++ mke ++ mkn ++ pad2

/-- Concrete salt for witnesses: bytes 0..15. -/
def exSalt : List Nat := List.range 16

/-- Concrete raw key for witnesses. -/
def exRawKey : List Nat := [1, 2, 3]

/-- Concrete 24-byte memory-mode XChaCha20-Poly1305 nonce for witnesses. -/
def exNonce24 : List Nat := List.range 24

/-- Concrete 32-byte master key for witnesses. -/
def exMasterKey : List Nat := List.replicate 32 7

/-- Concrete wrapped master key for witnesses: the master key wrapped under
the hashed raw key with empty AAD, as the encryption pipeline produces. -/
def exWrappedMk : List Nat :=
  cipherEncrypt .XChaCha20Poly1305 (balloonHash exRawKey exSalt) exNonce24 [] exMasterKey

/-- Concrete V4 header for witnesses. -/
def exV4Header : Header :=
  ⟨⟨.V4, .XChaCha20Poly1305, Mode.MemoryMode⟩, exNonce24, exSalt,
    some exWrappedMk, some exNonce24⟩

/-- Serialized form of the concrete V4 header. -/
def exV4File : List Nat := exV4Header.serializeV4

/-- The AAD that deserialization returns for the concrete V4 header. -/
def exV4Aad : List Nat := exV4File.take 48 ++ exV4File.drop 120

/-- Concrete V3 header for witnesses (stream mode, 8-byte AES-GCM nonce). -/
def exV3Header : Header :=
  ⟨⟨.V3, .Aes256Gcm, Mode.StreamMode⟩, List.range 8, exSalt, none, none⟩

/-- Serialized form of the concrete V3 header. -/
def exV3File : List Nat := exV3Header.serializeV3

/-- Concrete V1 header bytes for witnesses (memory mode, 12-byte AES-GCM
nonce). -/
def exV1File : List Nat :=
  layoutV1 (serializeVersionTag .V1) .Aes256Gcm Mode.MemoryMode exSalt
    (List.replicate 16 0) (List.range 12) (List.replicate 14 0)

/-- Concrete V2 header bytes for witnesses (memory mode, 24-byte XChaCha
nonce). -/
def exV2File : List Nat :=
  layoutV2 .XChaCha20Poly1305 Mode.MemoryMode exSalt (List.range 24)
    (List.replicate 2 0) (List.replicate 16 0)

/-- Concrete parsed V3 header value (what deserializing exV3File returns). -/
def exV3Parsed : Header :=
  ⟨⟨.V3, .Aes256Gcm, Mode.StreamMode⟩, List.range 8, exSalt, none, none⟩

/-- Concrete re-wrapped master key produced by key rotation under the new
raw key [9, 9]. -/
def exMkeNew : List Nat :=
  cipherEncrypt .XChaCha20Poly1305 (balloonHash [9, 9] exSalt) exNonce24 []
    ((exMasterKey ++ List.replicate (32 - exMasterKey.length) 0).take 32)

/-- Concrete file contents written back by key rotation on the layout form
of the concrete V4 file. -/
def exUpdOut : List Nat :=
  Header.serializeV4 ⟨⟨.V4, .XChaCha20Poly1305, Mode.MemoryMode⟩, exNonce24, exSalt,
    some exMkeNew, some exNonce24⟩ ++ []

end Dexios

namespace Dexios

/-! Helper lemmas: nonce-length bounds, list slicing, and the behaviour of
`Header.deserialize` on each version's layout. -/

theorem calcNonceLen_le (ht : HeaderType) : calcNonceLen ht ≤ 24 := by
  rcases ht with ⟨v, a, m⟩
  cases a <;> cases m <;> simp [calcNonceLen]

theorem sliceLen_parts {l p m q : List Nat} {o k : Nat}
    (hl : l = p ++ (m ++ q)) (ho : p.length = o) (hk : m.length = k) :
    sliceLen l o k = m := by
  subst hl; subst ho; subst hk
  simp [sliceLen, List.drop_left, List.take_left]

theorem take_parts {l p q : List Nat} {o : Nat}
    (hl : l = p ++ q) (ho : p.length = o) : l.take o = p := by
  subst hl; exact List.take_left' ho

theorem drop_parts {l p q : List Nat} {o : Nat}
    (hl : l = p ++ q) (ho : p.length = o) : l.drop o = q := by
  subst hl; exact List.drop_left' ho

theorem length_serializeAlgorithmTag (a : Algorithm) :
    (serializeAlgorithmTag a).length = 2 := by cases a <;> rfl

theorem length_serializeModeTag (m : Mode) :
    (serializeModeTag m).length = 2 := by cases m <;> rfl

theorem parseAlgorithm_tag (a : Algorithm) :
    parseAlgorithm (serializeAlgorithmTag a) = some a := by cases a <;> rfl

theorem parseMode_tag (m : Mode) :
    parseMode (serializeModeTag m) = some m := by cases m <;> rfl

theorem layoutV4_length (alg : Algorithm) (mode : Mode)
    (salt nonce pad1 mke mkn pad2 : List Nat)
    (hs : salt.length = 16)
    (hn : nonce.length = calcNonceLen ⟨.V4, alg, mode⟩)
    (hp1 : pad1.length = 26 - calcNonceLen ⟨.V4, alg, mode⟩)
    (hk : mke.length = 48)
    (hm : mkn.length = calcNonceLen ⟨.V4, alg, Mode.MemoryMode⟩)
    (hp2 : pad2.length = 32 - calcNonceLen ⟨.V4, alg, Mode.MemoryMode⟩) :
    (layoutV4 alg mode salt nonce pad1 mke mkn pad2).length = 128 := by
  have hnle : calcNonceLen ⟨.V4, alg, mode⟩ ≤ 24 := calcNonceLen_le _
  have hmle : calcNonceLen ⟨.V4, alg, Mode.MemoryMode⟩ ≤ 24 := calcNonceLen_le _
  simp [layoutV4, serializeVersionTag, length_serializeAlgorithmTag,
    length_serializeModeTag, hs, hn, hp1, hk, hm, hp2]
  omega

theorem layoutV4_slice_alg (alg : Algorithm) (mode : Mode)
    (salt nonce pad1 mke mkn pad2 : List Nat) :
    sliceLen (layoutV4 alg mode salt nonce pad1 mke mkn pad2) 2 2
      = serializeAlgorithmTag alg := by
  apply sliceLen_parts (p := serializeVersionTag .V4)
    (q := serializeModeTag mode ++ salt ++ nonce ++ pad1 ++ mke ++ mkn ++ pad2)
  · simp [layoutV4]
  · rfl
  · exact length_serializeAlgorithmTag alg

theorem layoutV4_slice_mode (alg : Algorithm) (mode : Mode)
    (salt nonce pad1 mke mkn pad2 : List Nat) :
    sliceLen (layoutV4 alg mode salt nonce pad1 mke mkn pad2) 4 2
      = serializeModeTag mode := by
  apply sliceLen_parts (p := serializeVersionTag .V4 ++ serializeAlgorithmTag alg)
    (q := salt ++ nonce ++ pad1 ++ mke ++ mkn ++ pad2)
  · simp [layoutV4]
  · simp [serializeVersionTag, length_serializeAlgorithmTag]
  · exact length_serializeModeTag mode

theorem layoutV4_slice_salt (alg : Algorithm) (mode : Mode)
    (salt nonce pad1 mke mkn pad2 : List Nat) (hs : salt.length = 16) :
    sliceLen (layoutV4 alg mode salt nonce pad1 mke mkn pad2) 6 16 = salt := by
  apply sliceLen_parts
    (p := serializeVersionTag .V4 ++ serializeAlgorithmTag alg ++ serializeModeTag mode)
    (q := nonce ++ pad1 ++ mke ++ mkn ++ pad2)
  · simp [layoutV4]
  · simp [serializeVersionTag, length_serializeAlgorithmTag, length_serializeModeTag]
  · exact hs

theorem layoutV4_slice_nonce (alg : Algorithm) (mode : Mode)
    (salt nonce pad1 mke mkn pad2 : List Nat) (hs : salt.length = 16) {n : Nat}
    (hn : nonce.length = n) :
    sliceLen (layoutV4 alg mode salt nonce pad1 mke mkn pad2) 22 n = nonce := by
  apply sliceLen_parts
    (p := serializeVersionTag .V4 ++ serializeAlgorithmTag alg ++
      serializeModeTag mode ++ salt)
    (q := pad1 ++ mke ++ mkn ++ pad2)
  · simp [layoutV4]
  · simp [serializeVersionTag, length_serializeAlgorithmTag, length_serializeModeTag, hs]
  · exact hn

theorem layoutV4_slice_pad1 (alg : Algorithm) (mode : Mode)
    (salt nonce pad1 mke mkn pad2 : List Nat) (hs : salt.length = 16) {n k : Nat}
    (hn : nonce.length = n) (hp1 : pad1.length = k) :
    sliceLen (layoutV4 alg mode salt nonce pad1 mke mkn pad2) (22 + n) k = pad1 := by
  apply sliceLen_parts
    (p := serializeVersionTag .V4 ++ serializeAlgorithmTag alg ++
      serializeModeTag mode ++ salt ++ nonce)
    (q := mke ++ mkn ++ pad2)
  · simp [layoutV4]
  · simp [serializeVersionTag, length_serializeAlgorithmTag, length_serializeModeTag,
      hs, hn]
    omega
  · exact hp1

theorem layoutV4_slice_mke (alg : Algorithm) (mode : Mode)
    (salt nonce pad1 mke mkn pad2 : List Nat) (hs : salt.length = 16)
    (hn : nonce.length = calcNonceLen ⟨.V4, alg, mode⟩)
    (hp1 : pad1.length = 26 - calcNonceLen ⟨.V4, alg, mode⟩) {k : Nat}
    (hk : mke.length = k) :
    sliceLen (layoutV4 alg mode salt nonce pad1 mke mkn pad2) 48 k = mke := by
  have hnle : calcNonceLen ⟨.V4, alg, mode⟩ ≤ 24 := calcNonceLen_le _
  apply sliceLen_parts
    (p := serializeVersionTag .V4 ++ serializeAlgorithmTag alg ++
      serializeModeTag mode ++ salt ++ nonce ++ pad1)
    (q := mkn ++ pad2)
  · simp [layoutV4]
  · simp [serializeVersionTag, length_serializeAlgorithmTag, length_serializeModeTag,
      hs, hn, hp1]
    omega
  · exact hk

theorem layoutV4_slice_mkn (alg : Algorithm) (mode : Mode)
    (salt nonce pad1 mke mkn pad2 : List Nat) (hs : salt.length = 16)
    (hn : nonce.length = calcNonceLen ⟨.V4, alg, mode⟩)
    (hp1 : pad1.length = 26 - calcNonceLen ⟨.V4, alg, mode⟩)
    (hk : mke.length = 48) {m : Nat} (hm : mkn.length = m) :
    sliceLen (layoutV4 alg mode salt nonce pad1 mke mkn pad2) 96 m = mkn := by
  have hnle : calcNonceLen ⟨.V4, alg, mode⟩ ≤ 24 := calcNonceLen_le _
  apply sliceLen_parts
    (p := serializeVersionTag .V4 ++ serializeAlgorithmTag alg ++
      serializeModeTag mode ++ salt ++ nonce ++ pad1 ++ mke)
    (q := pad2)
  · simp [layoutV4]
  · simp [serializeVersionTag, length_serializeAlgorithmTag, length_serializeModeTag,
      hs, hn, hp1, hk]
    omega
  · exact hm

theorem layoutV4_take48 (alg : Algorithm) (mode : Mode)
    (salt nonce pad1 mke mkn pad2 : List Nat) (hs : salt.length = 16)
    (hn : nonce.length = calcNonceLen ⟨.V4, alg, mode⟩)
    (hp1 : pad1.length = 26 - calcNonceLen ⟨.V4, alg, mode⟩) :
    (layoutV4 alg mode salt nonce pad1 mke mkn pad2).take 48
      = serializeVersionTag .V4 ++ serializeAlgorithmTag alg ++ serializeModeTag mode ++
        salt ++ nonce ++ pad1 := by
  have hnle : calcNonceLen ⟨.V4, alg, mode⟩ ≤ 24 := calcNonceLen_le _
  apply take_parts (q := mke ++ mkn ++ pad2)
  · simp [layoutV4]
  · simp [serializeVersionTag, length_serializeAlgorithmTag, length_serializeModeTag,
      hs, hn, hp1]
    omega

theorem layoutV4_drop96m (alg : Algorithm) (mode : Mode)
    (salt nonce pad1 mke mkn pad2 : List Nat) (hs : salt.length = 16)
    (hn : nonce.length = calcNonceLen ⟨.V4, alg, mode⟩)
    (hp1 : pad1.length = 26 - calcNonceLen ⟨.V4, alg, mode⟩)
    (hk : mke.length = 48) {m : Nat} (hm : mkn.length = m) :
    (layoutV4 alg mode salt nonce pad1 mke mkn pad2).drop (96 + m) = pad2 := by
  have hnle : calcNonceLen ⟨.V4, alg, mode⟩ ≤ 24 := calcNonceLen_le _
  apply drop_parts
    (p := serializeVersionTag .V4 ++ serializeAlgorithmTag alg ++
      serializeModeTag mode ++ salt ++ nonce ++ pad1 ++ mke ++ mkn)
  · simp [layoutV4]
  · simp [serializeVersionTag, length_serializeAlgorithmTag, length_serializeModeTag,
      hs, hn, hp1, hk, hm]
    omega

theorem deserialize_layoutV4 (alg : Algorithm) (mode : Mode)
    (salt nonce pad1 mke mkn pad2 rest : List Nat)
    (hs : salt.length = 16)
    (hn : nonce.length = calcNonceLen ⟨.V4, alg, mode⟩)
    (hp1 : pad1.length = 26 - calcNonceLen ⟨.V4, alg, mode⟩)
    (hk : mke.length = 48)
    (hm : mkn.length = calcNonceLen ⟨.V4, alg, Mode.MemoryMode⟩)
    (hp2 : pad2.length = 32 - calcNonceLen ⟨.V4, alg, Mode.MemoryMode⟩) :
    Header.deserialize (layoutV4 alg mode salt nonce pad1 mke mkn pad2 ++ rest)
      = .ok (⟨⟨.V4, alg, mode⟩, nonce, salt, some mke, some mkn⟩,
          (serializeVersionTag .V4 ++ serializeAlgorithmTag alg ++ serializeModeTag mode ++
            salt ++ nonce ++ pad1) ++ pad2) := by
  have hLlen : (layoutV4 alg mode salt nonce pad1 mke mkn pad2).length = 128 :=
    layoutV4_length alg mode salt nonce pad1 mke mkn pad2 hs hn hp1 hk hm hp2
  have hwlen : (layoutV4 alg mode salt nonce pad1 mke mkn pad2 ++ rest).length
      = 128 + rest.length := by simp [hLlen]
  have hfull : (layoutV4 alg mode salt nonce pad1 mke mkn pad2 ++ rest).take 128
      = layoutV4 alg mode salt nonce pad1 mke mkn pad2 := List.take_left' hLlen
  have htake2 : (layoutV4 alg mode salt nonce pad1 mke mkn pad2 ++ rest).take 2
      = [0xDE, 0x04] := by
    apply take_parts (q := (serializeAlgorithmTag alg ++ serializeModeTag mode ++
      salt ++ nonce ++ pad1 ++ mke ++ mkn ++ pad2) ++ rest)
    · simp [layoutV4, serializeVersionTag]
    · rfl
  unfold Header.deserialize
  rw [if_neg (by omega)]
  rw [htake2]
  have hpv : parseVersion [0xDE, 0x04] = some HeaderVersion.V4 := by decide
  rw [hpv]
  simp only [headerLength]
  rw [if_neg (by omega)]
  rw [hfull]
  rw [layoutV4_slice_alg, parseAlgorithm_tag, layoutV4_slice_mode, parseMode_tag]
  simp only [layoutV4_slice_salt alg mode salt nonce pad1 mke mkn pad2 hs,
    layoutV4_slice_nonce alg mode salt nonce pad1 mke mkn pad2 hs hn,
    layoutV4_slice_mke alg mode salt nonce pad1 mke mkn pad2 hs hn hp1 hk,
    layoutV4_slice_mkn alg mode salt nonce pad1 mke mkn pad2 hs hn hp1 hk hm,
    layoutV4_take48 alg mode salt nonce pad1 mke mkn pad2 hs hn hp1,
    layoutV4_drop96m alg mode salt nonce pad1 mke mkn pad2 hs hn hp1 hk hm]

theorem layoutV1_length (vtag : List Nat) (alg : Algorithm) (mode : Mode)
    (salt resv nonce pad : List Nat) (hv : vtag.length = 2)
    (hs : salt.length = 16) (hr : resv.length = 16) {n : Nat}
    (hn : nonce.length = n) (hnle : n ≤ 26) (hp : pad.length = 26 - n) :
    (layoutV1 vtag alg mode salt resv nonce pad).length = 64 := by
  simp [layoutV1, hv, length_serializeAlgorithmTag, length_serializeModeTag,
    hs, hr, hn, hp]
  omega

theorem layoutV1_slice_alg (vtag : List Nat) (alg : Algorithm) (mode : Mode)
    (salt resv nonce pad : List Nat) (hv : vtag.length = 2) :
    sliceLen (layoutV1 vtag alg mode salt resv nonce pad) 2 2
      = serializeAlgorithmTag alg := by
  apply sliceLen_parts (p := vtag)
    (q := serializeModeTag mode ++ salt ++ resv ++ nonce ++ pad)
  · simp [layoutV1]
  · exact hv
  · exact length_serializeAlgorithmTag alg

theorem layoutV1_slice_mode (vtag : List Nat) (alg : Algorithm) (mode : Mode)
    (salt resv nonce pad : List Nat) (hv : vtag.length = 2) :
    sliceLen (layoutV1 vtag alg mode salt resv nonce pad) 4 2
      = serializeModeTag mode := by
  apply sliceLen_parts (p := vtag ++ serializeAlgorithmTag alg)
    (q := salt ++ resv ++ nonce ++ pad)
  · simp [layoutV1]
  · simp [hv, length_serializeAlgorithmTag]
  · exact length_serializeModeTag mode

theorem layoutV1_slice_salt (vtag : List Nat) (alg : Algorithm) (mode : Mode)
    (salt resv nonce pad : List Nat) (hv : vtag.length = 2) (hs : salt.length = 16) :
    sliceLen (layoutV1 vtag alg mode salt resv nonce pad) 6 16 = salt := by
  apply sliceLen_parts (p := vtag ++ serializeAlgorithmTag alg ++ serializeModeTag mode)
    (q := resv ++ nonce ++ pad)
  · simp [layoutV1]
  · simp [hv, length_serializeAlgorithmTag, length_serializeModeTag]
  · exact hs

theorem layoutV1_slice_resv (vtag : List Nat) (alg : Algorithm) (mode : Mode)
    (salt resv nonce pad : List Nat) (hv : vtag.length = 2) (hs : salt.length = 16)
    {r : Nat} (hr : resv.length = r) :
    sliceLen (layoutV1 vtag alg mode salt resv nonce pad) 22 r = resv := by
  apply sliceLen_parts
    (p := vtag ++ serializeAlgorithmTag alg ++ serializeModeTag mode ++ salt)
    (q := nonce ++ pad)
  · simp [layoutV1]
  · simp [hv, length_serializeAlgorithmTag, length_serializeModeTag, hs]
  · exact hr

theorem layoutV1_slice_nonce (vtag : List Nat) (alg : Algorithm) (mode : Mode)
    (salt resv nonce pad : List Nat) (hv : vtag.length = 2) (hs : salt.length = 16)
    (hr : resv.length = 16) {n : Nat} (hn : nonce.length = n) :
    sliceLen (layoutV1 vtag alg mode salt resv nonce pad) 38 n = nonce := by
  apply sliceLen_parts
    (p := vtag ++ serializeAlgorithmTag alg ++ serializeModeTag mode ++ salt ++ resv)
    (q := pad)
  · simp [layoutV1]
  · simp [hv, length_serializeAlgorithmTag, length_serializeModeTag, hs, hr]
  · exact hn

theorem layoutV1_slice_pad (vtag : List Nat) (alg : Algorithm) (mode : Mode)
    (salt resv nonce pad : List Nat) (hv : vtag.length = 2) (hs : salt.length = 16)
    (hr : resv.length = 16) {n k : Nat} (hn : nonce.length = n) (hp : pad.length = k) :
    sliceLen (layoutV1 vtag alg mode salt resv nonce pad) (38 + n) k = pad := by
  apply sliceLen_parts
    (p := vtag ++ serializeAlgorithmTag alg ++ serializeModeTag mode ++
      salt ++ resv ++ nonce)
    (q := [])
  · simp [layoutV1]
  · simp [hv, length_serializeAlgorithmTag, length_serializeModeTag, hs, hr, hn]
    omega
  · exact hp

theorem deserialize_layoutV1 (alg : Algorithm) (mode : Mode)
    (salt resv nonce pad rest : List Nat)
    (hs : salt.length = 16) (hr : resv.length = 16)
    (hn : nonce.length = calcNonceLen ⟨.V1, alg, mode⟩)
    (hp : pad.length = 26 - calcNonceLen ⟨.V1, alg, mode⟩) :
    Header.deserialize
        (layoutV1 (serializeVersionTag .V1) alg mode salt resv nonce pad ++ rest)
      = .ok (⟨⟨.V1, alg, mode⟩, nonce, salt, none, none⟩, []) := by
  have hnle : calcNonceLen ⟨.V1, alg, mode⟩ ≤ 24 := calcNonceLen_le _
  have hvt : (serializeVersionTag HeaderVersion.V1).length = 2 := rfl
  have hLlen : (layoutV1 (serializeVersionTag .V1) alg mode salt resv nonce pad).length
      = 64 := layoutV1_length _ alg mode salt resv nonce pad hvt hs hr hn (by omega) hp
  have hwlen : (layoutV1 (serializeVersionTag .V1) alg mode salt resv nonce pad
      ++ rest).length = 64 + rest.length := by simp [hLlen]
  have hfull : (layoutV1 (serializeVersionTag .V1) alg mode salt resv nonce pad
      ++ rest).take 64
      = layoutV1 (serializeVersionTag .V1) alg mode salt resv nonce pad :=
    List.take_left' hLlen
  have htake2 : (layoutV1 (serializeVersionTag .V1) alg mode salt resv nonce pad
      ++ rest).take 2 = [0xDE, 0x01] := by
    apply take_parts (q := (serializeAlgorithmTag alg ++ serializeModeTag mode ++
      salt ++ resv ++ nonce ++ pad) ++ rest)
    · simp [layoutV1, serializeVersionTag]
    · rfl
  unfold Header.deserialize
  rw [if_neg (by omega)]
  rw [htake2]
  have hpv : parseVersion [0xDE, 0x01] = some HeaderVersion.V1 := by decide
  rw [hpv]
  simp only [headerLength]
  rw [if_neg (by omega)]
  rw [hfull]
  rw [layoutV1_slice_alg _ alg mode salt resv nonce pad hvt, parseAlgorithm_tag,
    layoutV1_slice_mode _ alg mode salt resv nonce pad hvt, parseMode_tag]
  simp only [layoutV1_slice_salt _ alg mode salt resv nonce pad hvt hs,
    layoutV1_slice_nonce _ alg mode salt resv nonce pad hvt hs hr hn]

theorem deserialize_layoutV3 (alg : Algorithm) (mode : Mode)
    (salt resv nonce pad rest : List Nat)
    (hs : salt.length = 16) (hr : resv.length = 16)
    (hn : nonce.length = calcNonceLen ⟨.V3, alg, mode⟩)
    (hp : pad.length = 26 - calcNonceLen ⟨.V3, alg, mode⟩) :
    Header.deserialize
        (layoutV1 (serializeVersionTag .V3) alg mode salt resv nonce pad ++ rest)
      = .ok (⟨⟨.V3, alg, mode⟩, nonce, salt, none, none⟩,
          layoutV1 (serializeVersionTag .V3) alg mode salt resv nonce pad) := by
  have hnle : calcNonceLen ⟨.V3, alg, mode⟩ ≤ 24 := calcNonceLen_le _
  have hvt : (serializeVersionTag HeaderVersion.V3).length = 2 := rfl
  have hLlen : (layoutV1 (serializeVersionTag .V3) alg mode salt resv nonce pad).length
      = 64 := layoutV1_length _ alg mode salt resv nonce pad hvt hs hr hn (by omega) hp
  have hwlen : (layoutV1 (serializeVersionTag .V3) alg mode salt resv nonce pad
      ++ rest).length = 64 + rest.length := by simp [hLlen]
  have hfull : (layoutV1 (serializeVersionTag .V3) alg mode salt resv nonce pad
      ++ rest).take 64
      = layoutV1 (serializeVersionTag .V3) alg mode salt resv nonce pad :=
    List.take_left' hLlen
  have htake2 : (layoutV1 (serializeVersionTag .V3) alg mode salt resv nonce pad
      ++ rest).take 2 = [0xDE, 0x03] := by
    apply take_parts (q := (serializeAlgorithmTag alg ++ serializeModeTag mode ++
      salt ++ resv ++ nonce ++ pad) ++ rest)
    · simp [layoutV1, serializeVersionTag]
    · rfl
  unfold Header.deserialize
  rw [if_neg (by omega)]
  rw [htake2]
  have hpv : parseVersion [0xDE, 0x03] = some HeaderVersion.V3 := by decide
  rw [hpv]
  simp only [headerLength]
  rw [if_neg (by omega)]
  rw [hfull]
  rw [layoutV1_slice_alg _ alg mode salt resv nonce pad hvt, parseAlgorithm_tag,
    layoutV1_slice_mode _ alg mode salt resv nonce pad hvt, parseMode_tag]
  simp only [layoutV1_slice_salt _ alg mode salt resv nonce pad hvt hs,
    layoutV1_slice_nonce _ alg mode salt resv nonce pad hvt hs hr hn]

theorem layoutV2_length (alg : Algorithm) (mode : Mode)
    (salt nonce pad1 pad2 : List Nat) (hs : salt.length = 16) {n : Nat}
    (hn : nonce.length = n) (hnle : n ≤ 26) (hp1 : pad1.length = 26 - n)
    (hp2 : pad2.length = 16) :
    (layoutV2 alg mode salt nonce pad1 pad2).length = 64 := by
  simp [layoutV2, serializeVersionTag, length_serializeAlgorithmTag,
    length_serializeModeTag, hs, hn, hp1, hp2]
  omega

theorem layoutV2_slice_salt (alg : Algorithm) (mode : Mode)
    (salt nonce pad1 pad2 : List Nat) (hs : salt.length = 16) :
    sliceLen (layoutV2 alg mode salt nonce pad1 pad2) 6 16 = salt := by
  apply sliceLen_parts
    (p := serializeVersionTag .V2 ++ serializeAlgorithmTag alg ++ serializeModeTag mode)
    (q := nonce ++ pad1 ++ pad2)
  · simp [layoutV2]
  · simp [serializeVersionTag, length_serializeAlgorithmTag, length_serializeModeTag]
  · exact hs

theorem layoutV2_slice_nonce (alg : Algorithm) (mode : Mode)
    (salt nonce pad1 pad2 : List Nat) (hs : salt.length = 16) {n : Nat}
    (hn : nonce.length = n) :
    sliceLen (layoutV2 alg mode salt nonce pad1 pad2) 22 n = nonce := by
  apply sliceLen_parts
    (p := serializeVersionTag .V2 ++ serializeAlgorithmTag alg ++
      serializeModeTag mode ++ salt)
    (q := pad1 ++ pad2)
  · simp [layoutV2]
  · simp [serializeVersionTag, length_serializeAlgorithmTag, length_serializeModeTag, hs]
  · exact hn

theorem deserialize_layoutV2 (alg : Algorithm) (mode : Mode)
    (salt nonce pad1 pad2 rest : List Nat)
    (hs : salt.length = 16)
    (hn : nonce.length = calcNonceLen ⟨.V2, alg, mode⟩)
    (hp1 : pad1.length = 26 - calcNonceLen ⟨.V2, alg, mode⟩)
    (hp2 : pad2.length = 16) :
    Header.deserialize (layoutV2 alg mode salt nonce pad1 pad2 ++ rest)
      = .ok (⟨⟨.V2, alg, mode⟩, nonce, salt, none, none⟩, []) := by
  have hnle : calcNonceLen ⟨.V2, alg, mode⟩ ≤ 24 := calcNonceLen_le _
  have hLlen : (layoutV2 alg mode salt nonce pad1 pad2).length = 64 :=
    layoutV2_length alg mode salt nonce pad1 pad2 hs hn (by omega) hp1 hp2
  have hwlen : (layoutV2 alg mode salt nonce pad1 pad2 ++ rest).length
      = 64 + rest.length := by simp [hLlen]
  have hfull : (layoutV2 alg mode salt nonce pad1 pad2 ++ rest).take 64
      = layoutV2 alg mode salt nonce pad1 pad2 := List.take_left' hLlen
  have htake2 : (layoutV2 alg mode salt nonce pad1 pad2 ++ rest).take 2
      = [0xDE, 0x02] := by
    apply take_parts (q := (serializeAlgorithmTag alg ++ serializeModeTag mode ++
      salt ++ nonce ++ pad1 ++ pad2) ++ rest)
    · simp [layoutV2, serializeVersionTag]
    · rfl
  have halg : sliceLen (layoutV2 alg mode salt nonce pad1 pad2) 2 2
      = serializeAlgorithmTag alg := by
    apply sliceLen_parts (p := serializeVersionTag .V2)
      (q := serializeModeTag mode ++ salt ++ nonce ++ pad1 ++ pad2)
    · simp [layoutV2]
    · rfl
    · exact length_serializeAlgorithmTag alg
  have hmode : sliceLen (layoutV2 alg mode salt nonce pad1 pad2) 4 2
      = serializeModeTag mode := by
    apply sliceLen_parts (p := serializeVersionTag .V2 ++ serializeAlgorithmTag alg)
      (q := salt ++ nonce ++ pad1 ++ pad2)
    · simp [layoutV2]
    · simp [serializeVersionTag, length_serializeAlgorithmTag]
    · exact length_serializeModeTag mode
  unfold Header.deserialize
  rw [if_neg (by omega)]
  rw [htake2]
  have hpv : parseVersion [0xDE, 0x02] = some HeaderVersion.V2 := by decide
  rw [hpv]
  simp only [headerLength]
  rw [if_neg (by omega)]
  rw [hfull]
  rw [halg, parseAlgorithm_tag, hmode, parseMode_tag]
  simp only [layoutV2_slice_salt alg mode salt nonce pad1 pad2 hs,
    layoutV2_slice_nonce alg mode salt nonce pad1 pad2 hs hn]

theorem serializeV4_mk (alg : Algorithm) (mode : Mode)
    (nonce salt mke mkn : List Nat) :
    Header.serializeV4 ⟨⟨.V4, alg, mode⟩, nonce, salt, some mke, some mkn⟩
      = layoutV4 alg mode salt nonce
          (List.replicate (26 - calcNonceLen ⟨.V4, alg, mode⟩) 0) mke mkn
          (List.replicate (32 - calcNonceLen ⟨.V4, alg, Mode.MemoryMode⟩) 0) := by
  simp [Header.serializeV4, Header.tagBytes, layoutV4, List.append_assoc]

theorem serializeV3_mk (alg : Algorithm) (mode : Mode) (nonce salt : List Nat)
    (mke mkn : Option (List Nat)) :
    Header.serializeV3 ⟨⟨.V3, alg, mode⟩, nonce, salt, mke, mkn⟩
      = layoutV1 (serializeVersionTag .V3) alg mode salt (List.replicate 16 0) nonce
          (List.replicate (26 - calcNonceLen ⟨.V3, alg, mode⟩) 0) := by
  simp [Header.serializeV3, Header.tagBytes, layoutV1, List.append_assoc]

theorem length_aeadTag (alg : Algorithm) (key nonce aad msg : List Nat) :
    (aeadTag alg key nonce aad msg).length = 16 := by
  simp [aeadTag]

theorem length_cipherEncrypt (alg : Algorithm) (key nonce aad msg : List Nat) :
    (cipherEncrypt alg key nonce aad msg).length = msg.length + 16 := by
  simp [cipherEncrypt, length_aeadTag]

theorem cipherDecrypt_cipherEncrypt (alg : Algorithm) (key nonce aad msg : List Nat) :
    cipherDecrypt alg key nonce aad (cipherEncrypt alg key nonce aad msg)
      = .ok msg := by
  have hlen := length_cipherEncrypt alg key nonce aad msg
  unfold cipherDecrypt
  rw [if_neg (by omega)]
  have htake : (cipherEncrypt alg key nonce aad msg).take
      ((cipherEncrypt alg key nonce aad msg).length - 16) = msg := by
    rw [hlen]
    have h16 : msg.length + 16 - 16 = msg.length := by omega
    rw [h16]
    show (msg ++ aeadTag alg key nonce aad msg).take msg.length = msg
    exact List.take_left' rfl
  simp only [htake]
  rw [if_pos (show cipherEncrypt alg key nonce aad msg
    = msg ++ aeadTag alg key nonce aad msg from rfl)]

theorem length_encryptLast (st : StreamState) (aad msg : List Nat) :
    (encryptLast st aad msg).length = msg.length + 16 :=
  length_cipherEncrypt _ _ _ _ _

theorem encryptStreamLoop_blocks_aux (N : Nat) :
    ∀ (data : List Nat) (st : StreamState) (aad : List Nat), data.length ≤ N →
      (encryptStreamLoop st aad data).map (fun c => (c.1, c.2.length))
        = List.replicate (data.length / BLOCK_SIZE) (false, BLOCK_SIZE + 16)
          ++ [(true, data.length % BLOCK_SIZE + 16)] := by
  induction N with
  | zero =>
    intro data st aad hle
    have h0 : data.length = 0 := by omega
    have hlt : data.length < BLOCK_SIZE := by simp [BLOCK_SIZE]; omega
    rw [encryptStreamLoop, dif_pos hlt]
    simp [length_encryptLast, h0, Nat.zero_div, Nat.zero_mod]
  | succ N ih =>
    intro data st aad hle
    by_cases hlt : data.length < BLOCK_SIZE
    · rw [encryptStreamLoop, dif_pos hlt]
      simp [length_encryptLast, Nat.div_eq_of_lt hlt, Nat.mod_eq_of_lt hlt]
    · have hBpos : 0 < BLOCK_SIZE := Nat.zero_lt_succ _
      have hge : BLOCK_SIZE ≤ data.length := by omega
      rw [encryptStreamLoop, dif_neg hlt]
      rw [List.map_cons]
      rw [ih (data.drop BLOCK_SIZE) (encryptNext st aad (data.take BLOCK_SIZE)).2 aad
        (by simp only [List.length_drop]; omega)]
      have hfst : ((encryptNext st aad (data.take BLOCK_SIZE)).1).length
          = BLOCK_SIZE + 16 := by
        rw [show (encryptNext st aad (data.take BLOCK_SIZE)).1
          = cipherEncrypt st.alg st.key (streamBlockNonce st false) aad
              (data.take BLOCK_SIZE) from rfl]
        rw [length_cipherEncrypt]
        rw [List.length_take]
        omega
      have hdiv : data.length / BLOCK_SIZE
          = (data.drop BLOCK_SIZE).length / BLOCK_SIZE + 1 := by
        simp only [List.length_drop]
        rw [Nat.div_eq_sub_div hBpos hge]
      have hmod : data.length % BLOCK_SIZE
          = (data.drop BLOCK_SIZE).length % BLOCK_SIZE := by
        simp only [List.length_drop]
        rw [Nat.mod_eq_sub_mod hge]
      rw [hdiv, hmod, hfst, List.replicate_succ, List.cons_append]

theorem deserialize_aad_inv (bytes : List Nat) (h : Header) (aad : List Nat)
    (hde : Header.deserialize bytes = .ok (h, aad)) :
    (h.headerType.version = .V1 → aad = []) ∧
    (h.headerType.version = .V2 → aad = []) ∧
    (h.headerType.version = .V3 → aad = bytes.take 64) ∧
    (h.headerType.version = .V4 →
      aad = (bytes.take 128).take 48 ++ (bytes.take 128).drop
        (96 + calcNonceLen ⟨.V4, h.headerType.algorithm, Mode.MemoryMode⟩)) := by
  unfold Header.deserialize at hde
  all_goals try split at hde
  all_goals try split at hde
  all_goals try split at hde
  all_goals try split at hde
  all_goals try split at hde
  all_goals try split at hde
  all_goals try exact Except.noConfusion hde
  all_goals
    simp only [Except.ok.injEq, Prod.mk.injEq] at hde
  all_goals
    obtain ⟨hh, ha⟩ := hde
  all_goals try subst hh
  all_goals try subst ha
  all_goals simp [headerLength]

end Dexios

namespace Dexios

/-- C1: for every buffer that deserializes as a V4 header, the returned AAD
is bytes [0..48) of the serialized header followed by bytes [96+m..128),
where m is the memory-mode nonce length of the parsed algorithm — so the AAD
covers version, algorithm, mode, salt, data nonce and padding while
excluding the wrapped master key (bytes [48..96)) and its nonce (bytes
[96..96+m)); for every buffer that deserializes as a V3 header the returned
AAD is the entire 64-byte header. -/
theorem spec_c1_deserialize_aad :
    (∀ (bytes : List Nat) (h : Header) (aad : List Nat),
      Header.deserialize bytes = .ok (h, aad) → h.headerType.version = .V4 →
      aad = sliceLen bytes 0 48 ++ sliceLen bytes
          (96 + calcNonceLen ⟨.V4, h.headerType.algorithm, Mode.MemoryMode⟩)
          (32 - calcNonceLen ⟨.V4, h.headerType.algorithm, Mode.MemoryMode⟩)) ∧
    (∀ (bytes : List Nat) (h : Header) (aad : List Nat),
      Header.deserialize bytes = .ok (h, aad) → h.headerType.version = .V3 →
      aad = bytes.take 64) := by
  constructor
  · intro bytes h aad hde hv
    have hinv := (deserialize_aad_inv bytes h aad hde).2.2.2 hv
    have hmle : calcNonceLen ⟨.V4, h.headerType.algorithm, Mode.MemoryMode⟩ ≤ 24 :=
      calcNonceLen_le _
    rw [hinv]
    congr 1
    · rw [List.take_take]
      simp [sliceLen]
    · rw [List.drop_take]
      have h32 : 128 - (96 + calcNonceLen ⟨.V4, h.headerType.algorithm, Mode.MemoryMode⟩)
          = 32 - calcNonceLen ⟨.V4, h.headerType.algorithm, Mode.MemoryMode⟩ := by omega
      rw [h32]
      rfl
  · intro bytes h aad hde hv
    exact (deserialize_aad_inv bytes h aad hde).2.2.1 hv

set_option maxRecDepth 8192 in
/-- Witness for C1 at a concrete V4 header buffer. -/
theorem spec_c1_witness :
    Header.deserialize exV4File = .ok (exV4Header, exV4Aad) ∧
    exV4Aad = sliceLen exV4File 0 48 ++ sliceLen exV4File
        (96 + calcNonceLen ⟨.V4, exV4Header.headerType.algorithm, Mode.MemoryMode⟩)
        (32 - calcNonceLen ⟨.V4, exV4Header.headerType.algorithm, Mode.MemoryMode⟩) :=
  ⟨rfl, spec_c1_deserialize_aad.1 exV4File exV4Header exV4Aad rfl rfl⟩

/-- C3: create_aad agrees with deserialization — for every V3 or V4 header
with field lengths valid for its algorithm and mode, `create_aad` returns
exactly the byte sequence that `Header::deserialize` returns as the AAD of
the serialized header; for V1 and V2 headers `create_aad` fails. -/
theorem spec_c3_create_aad_agrees :
    (∀ (h : Header),
      (h.headerType.version = .V3 ∨ h.headerType.version = .V4) →
      h.salt.length = 16 →
      h.nonce.length = calcNonceLen h.headerType →
      (h.headerType.version = .V4 →
        (∃ k, h.masterKeyEncrypted = some k ∧ k.length = 48) ∧
        (∃ kn, h.masterKeyNonce = some kn ∧
          kn.length = calcNonceLen ⟨.V4, h.headerType.algorithm, Mode.MemoryMode⟩)) →
      ∃ bytes h2 aad, h.serialize = .ok bytes ∧
        Header.deserialize bytes = .ok (h2, aad) ∧ h.createAad = .ok aad) ∧
    (∀ (h : Header), h.headerType.version = .V1 ∨ h.headerType.version = .V2 →
      ∃ e, h.createAad = .error e) := by
  constructor
  · rintro ⟨⟨v, alg, mode⟩, nonce, salt, mke, mkn⟩ hv hs hn hv4
    simp only at hs hn hv4 ⊢
    rcases hv with hv | hv <;> subst hv
    · refine ⟨Header.serializeV3 ⟨⟨.V3, alg, mode⟩, nonce, salt, mke, mkn⟩,
        ⟨⟨.V3, alg, mode⟩, nonce, salt, none, none⟩,
        Header.serializeV3 ⟨⟨.V3, alg, mode⟩, nonce, salt, mke, mkn⟩, ?_, ?_, ?_⟩
      · simp [Header.serialize]
      · rw [serializeV3_mk]
        have := deserialize_layoutV3 alg mode salt (List.replicate 16 0) nonce
          (List.replicate (26 - calcNonceLen ⟨.V3, alg, mode⟩) 0) [] hs
          (by simp) (by exact hn) (by simp)
        rw [List.append_nil] at this
        rw [this]
      · simp [Header.createAad]
    · obtain ⟨⟨k, hk, hkl⟩, ⟨kn, hkn, hknl⟩⟩ := hv4 rfl
      subst hk
      subst hkn
      refine ⟨Header.serializeV4 ⟨⟨.V4, alg, mode⟩, nonce, salt, some k, some kn⟩,
        ⟨⟨.V4, alg, mode⟩, nonce, salt, some k, some kn⟩,
        (serializeVersionTag .V4 ++ serializeAlgorithmTag alg ++ serializeModeTag mode ++
          salt ++ nonce ++ List.replicate (26 - calcNonceLen ⟨.V4, alg, mode⟩) 0) ++
          List.replicate (32 - calcNonceLen ⟨.V4, alg, Mode.MemoryMode⟩) 0, ?_, ?_, ?_⟩
      · simp [Header.serialize]
      · rw [serializeV4_mk]
        have := deserialize_layoutV4 alg mode salt nonce
          (List.replicate (26 - calcNonceLen ⟨.V4, alg, mode⟩) 0) k kn
          (List.replicate (32 - calcNonceLen ⟨.V4, alg, Mode.MemoryMode⟩) 0) [] hs
          (by exact hn) (by simp) hkl hknl (by simp)
        rw [List.append_nil] at this
        rw [this]
      · simp [Header.createAad, Header.tagBytes, List.append_assoc]
  · rintro ⟨⟨v, alg, mode⟩, nonce, salt, mke, mkn⟩ hv
    rcases hv with hv | hv <;> subst hv <;> simp [Header.createAad]

/-- Witness for C3 at a concrete V3 header, plus a concrete V1 header for
the failure half. -/
theorem spec_c3_witness :
    (exV3Header.headerType.version = .V3 ∨ exV3Header.headerType.version = .V4) ∧
    exV3Header.salt.length = 16 ∧
    exV3Header.nonce.length = calcNonceLen exV3Header.headerType ∧
    (∃ bytes h2 aad, exV3Header.serialize = .ok bytes ∧
      Header.deserialize bytes = .ok (h2, aad) ∧ exV3Header.createAad = .ok aad) ∧
    (∃ e, Header.createAad ⟨⟨.V1, .Aes256Gcm, Mode.MemoryMode⟩, [], [], none, none⟩
      = .error e) :=
  ⟨Or.inl rfl, rfl, rfl,
    spec_c3_create_aad_agrees.1 exV3Header (Or.inl rfl) rfl rfl
      (fun hx => absurd hx (by decide)),
    spec_c3_create_aad_agrees.2 _ (Or.inl rfl)⟩

end Dexios

namespace Dexios

/-- C4: header serialization is bit-exact. A V4 header with valid field
lengths serializes to exactly 128 bytes with the version tag at [0..2), the
algorithm tag at [2..4), the mode tag at [4..6), the salt at [6..22), the
nonce at [22..22+n), zeros at [22+n..48), the 48-byte wrapped master key at
[48..96), the wrapped-key nonce at [96..96+m) and zeros at [96+m..128); a V3
header serializes to exactly 64 bytes with the salt at [6..22), zeros at
[22..38), the nonce at [38..38+n) and zeros to 64; and the tag byte pairs
are V3 = DE 03, V4 = DE 04, XChaCha20Poly1305 = 0E 01, Aes256Gcm = 0E 02,
DeoxysII256 = 0E 03, Stream = 0C 01, Memory = 0C 02. -/
theorem spec_c4_serialize_layout :
    (∀ (alg : Algorithm) (mode : Mode) (nonce salt k kn : List Nat),
      salt.length = 16 → nonce.length = calcNonceLen ⟨.V4, alg, mode⟩ →
      k.length = 48 → kn.length = calcNonceLen ⟨.V4, alg, Mode.MemoryMode⟩ →
      ∃ b, Header.serialize ⟨⟨.V4, alg, mode⟩, nonce, salt, some k, some kn⟩ = .ok b ∧
        b.length = 128 ∧
        sliceLen b 0 2 = serializeVersionTag .V4 ∧
        sliceLen b 2 2 = serializeAlgorithmTag alg ∧
        sliceLen b 4 2 = serializeModeTag mode ∧
        sliceLen b 6 16 = salt ∧
        sliceLen b 22 (calcNonceLen ⟨.V4, alg, mode⟩) = nonce ∧
        sliceLen b (22 + calcNonceLen ⟨.V4, alg, mode⟩) (26 - calcNonceLen ⟨.V4, alg, mode⟩)
          = List.replicate (26 - calcNonceLen ⟨.V4, alg, mode⟩) 0 ∧
        sliceLen b 48 48 = k ∧
        sliceLen b 96 (calcNonceLen ⟨.V4, alg, Mode.MemoryMode⟩) = kn ∧
        sliceLen b (96 + calcNonceLen ⟨.V4, alg, Mode.MemoryMode⟩)
            (32 - calcNonceLen ⟨.V4, alg, Mode.MemoryMode⟩)
          = List.replicate (32 - calcNonceLen ⟨.V4, alg, Mode.MemoryMode⟩) 0) ∧
    (∀ (alg : Algorithm) (mode : Mode) (nonce salt : List Nat)
      (mke mkn : Option (List Nat)),
      salt.length = 16 → nonce.length = calcNonceLen ⟨.V3, alg, mode⟩ →
      ∃ b, Header.serialize ⟨⟨.V3, alg, mode⟩, nonce, salt, mke, mkn⟩ = .ok b ∧
        b.length = 64 ∧
        sliceLen b 0 2 = serializeVersionTag .V3 ∧
        sliceLen b 2 2 = serializeAlgorithmTag alg ∧
        sliceLen b 4 2 = serializeModeTag mode ∧
        sliceLen b 6 16 = salt ∧
        sliceLen b 22 16 = List.replicate 16 0 ∧
        sliceLen b 38 (calcNonceLen ⟨.V3, alg, mode⟩) = nonce ∧
        sliceLen b (38 + calcNonceLen ⟨.V3, alg, mode⟩) (26 - calcNonceLen ⟨.V3, alg, mode⟩)
          = List.replicate (26 - calcNonceLen ⟨.V3, alg, mode⟩) 0) ∧
    (serializeVersionTag .V3 = [0xDE, 0x03] ∧ serializeVersionTag .V4 = [0xDE, 0x04] ∧
      serializeAlgorithmTag .XChaCha20Poly1305 = [0x0E, 0x01] ∧
      serializeAlgorithmTag .Aes256Gcm = [0x0E, 0x02] ∧
      serializeAlgorithmTag .DeoxysII256 = [0x0E, 0x03] ∧
      serializeModeTag .StreamMode = [0x0C, 0x01] ∧
      serializeModeTag .MemoryMode = [0x0C, 0x02]) := by
  refine ⟨?_, ?_, by decide⟩
  · intro alg mode nonce salt k kn hs hn hk hkn
    have hp1 : (List.replicate (26 - calcNonceLen ⟨.V4, alg, mode⟩) 0).length
        = 26 - calcNonceLen ⟨.V4, alg, mode⟩ := by simp
    have hp2 : (List.replicate (32 - calcNonceLen ⟨.V4, alg, Mode.MemoryMode⟩) 0).length
        = 32 - calcNonceLen ⟨.V4, alg, Mode.MemoryMode⟩ := by simp
    refine ⟨Header.serializeV4 ⟨⟨.V4, alg, mode⟩, nonce, salt, some k, some kn⟩,
      by simp [Header.serialize], ?_⟩
    rw [serializeV4_mk]
    refine ⟨layoutV4_length alg mode salt nonce _ k kn _ hs hn hp1 hk hkn hp2, ?_,
      layoutV4_slice_alg alg mode salt nonce _ k kn _,
      layoutV4_slice_mode alg mode salt nonce _ k kn _,
      layoutV4_slice_salt alg mode salt nonce _ k kn _ hs,
      layoutV4_slice_nonce alg mode salt nonce _ k kn _ hs hn,
      layoutV4_slice_pad1 alg mode salt nonce _ k kn _ hs hn hp1,
      layoutV4_slice_mke alg mode salt nonce _ k kn _ hs hn hp1 hk,
      layoutV4_slice_mkn alg mode salt nonce _ k kn _ hs hn hp1 hk hkn, ?_⟩
    · apply sliceLen_parts (p := [])
        (q := serializeAlgorithmTag alg ++ serializeModeTag mode ++ salt ++ nonce ++
          List.replicate (26 - calcNonceLen ⟨.V4, alg, mode⟩) 0 ++ k ++ kn ++
          List.replicate (32 - calcNonceLen ⟨.V4, alg, Mode.MemoryMode⟩) 0)
      · simp [layoutV4]
      · rfl
      · rfl
    · show (List.drop (96 + calcNonceLen ⟨.V4, alg, Mode.MemoryMode⟩) _).take _ = _
      rw [layoutV4_drop96m alg mode salt nonce _ k kn _ hs hn hp1 hk hkn]
      simp
  · intro alg mode nonce salt mke mkn hs hn
    have hnle : calcNonceLen ⟨.V3, alg, mode⟩ ≤ 24 := calcNonceLen_le _
    have hvt : (serializeVersionTag HeaderVersion.V3).length = 2 := rfl
    have hr : (List.replicate 16 (0 : Nat)).length = 16 := by simp
    have hp : (List.replicate (26 - calcNonceLen ⟨.V3, alg, mode⟩) (0 : Nat)).length
        = 26 - calcNonceLen ⟨.V3, alg, mode⟩ := by simp
    refine ⟨Header.serializeV3 ⟨⟨.V3, alg, mode⟩, nonce, salt, mke, mkn⟩,
      by simp [Header.serialize], ?_⟩
    rw [serializeV3_mk]
    refine ⟨layoutV1_length _ alg mode salt _ nonce _ hvt hs hr hn (by omega) hp, ?_,
      layoutV1_slice_alg _ alg mode salt _ nonce _ hvt,
      layoutV1_slice_mode _ alg mode salt _ nonce _ hvt,
      layoutV1_slice_salt _ alg mode salt _ nonce _ hvt hs,
      layoutV1_slice_resv _ alg mode salt _ nonce _ hvt hs hr,
      layoutV1_slice_nonce _ alg mode salt _ nonce _ hvt hs hr hn,
      layoutV1_slice_pad _ alg mode salt _ nonce _ hvt hs hr hn hp⟩
    apply sliceLen_parts (p := [])
      (q := serializeAlgorithmTag alg ++ serializeModeTag mode ++ salt ++
        List.replicate 16 0 ++ nonce ++
        List.replicate (26 - calcNonceLen ⟨.V3, alg, mode⟩) 0)
    · simp [layoutV1]
    · rfl
    · rfl

/-- Witness for C4 at a concrete V4 header. -/
theorem spec_c4_witness :
    (exSalt.length = 16 ∧
      exNonce24.length = calcNonceLen ⟨.V4, .XChaCha20Poly1305, Mode.MemoryMode⟩ ∧
      exWrappedMk.length = 48) ∧
    (∃ b, Header.serialize exV4Header = .ok b ∧
      b.length = 128 ∧
      sliceLen b 0 2 = serializeVersionTag .V4 ∧
      sliceLen b 2 2 = serializeAlgorithmTag .XChaCha20Poly1305 ∧
      sliceLen b 4 2 = serializeModeTag Mode.MemoryMode ∧
      sliceLen b 6 16 = exSalt ∧
      sliceLen b 22 (calcNonceLen ⟨.V4, .XChaCha20Poly1305, Mode.MemoryMode⟩) = exNonce24 ∧
      sliceLen b (22 + calcNonceLen ⟨.V4, .XChaCha20Poly1305, Mode.MemoryMode⟩)
          (26 - calcNonceLen ⟨.V4, .XChaCha20Poly1305, Mode.MemoryMode⟩)
        = List.replicate (26 - calcNonceLen ⟨.V4, .XChaCha20Poly1305, Mode.MemoryMode⟩) 0 ∧
      sliceLen b 48 48 = exWrappedMk ∧
      sliceLen b 96 (calcNonceLen ⟨.V4, .XChaCha20Poly1305, Mode.MemoryMode⟩) = exNonce24 ∧
      sliceLen b (96 + calcNonceLen ⟨.V4, .XChaCha20Poly1305, Mode.MemoryMode⟩)
          (32 - calcNonceLen ⟨.V4, .XChaCha20Poly1305, Mode.MemoryMode⟩)
        = List.replicate (32 - calcNonceLen ⟨.V4, .XChaCha20Poly1305, Mode.MemoryMode⟩) 0) :=
  ⟨⟨rfl, rfl, rfl⟩,
    spec_c4_serialize_layout.1 .XChaCha20Poly1305 Mode.MemoryMode exNonce24 exSalt
      exWrappedMk exNonce24 rfl rfl rfl rfl⟩

end Dexios

namespace Dexios

/-- C7: V1 and V2 headers are read-only — serialization and AAD creation
return the UnsupportedSerialization error for every V1 or V2 header value,
while deserializing a well-formed V1 or V2 byte buffer succeeds and returns
an empty AAD. -/
theorem spec_c7_v1v2_read_only :
    (∀ h : Header, h.headerType.version = .V1 →
      h.serialize = .error "Serializing V1 headers has been deprecated" ∧
      h.createAad = .error "Serializing V1 headers has been deprecated") ∧
    (∀ h : Header, h.headerType.version = .V2 →
      h.serialize = .error "Serializing V2 headers has been deprecated" ∧
      h.createAad = .error "Serializing V2 headers has been deprecated") ∧
    (∀ (alg : Algorithm) (mode : Mode) (salt resv nonce pad : List Nat),
      salt.length = 16 → resv.length = 16 →
      nonce.length = calcNonceLen ⟨.V1, alg, mode⟩ →
      pad.length = 26 - calcNonceLen ⟨.V1, alg, mode⟩ →
      Header.deserialize (layoutV1 (serializeVersionTag .V1) alg mode salt resv nonce pad)
        = .ok (⟨⟨.V1, alg, mode⟩, nonce, salt, none, none⟩, [])) ∧
    (∀ (alg : Algorithm) (mode : Mode) (salt nonce pad1 pad2 : List Nat),
      salt.length = 16 →
      nonce.length = calcNonceLen ⟨.V2, alg, mode⟩ →
      pad1.length = 26 - calcNonceLen ⟨.V2, alg, mode⟩ →
      pad2.length = 16 →
      Header.deserialize (layoutV2 alg mode salt nonce pad1 pad2)
        = .ok (⟨⟨.V2, alg, mode⟩, nonce, salt, none, none⟩, [])) := by
  refine ⟨?_, ?_, ?_, ?_⟩
  · rintro ⟨⟨v, alg, mode⟩, nonce, salt, mke, mkn⟩ hv
    simp only at hv
    subst hv
    exact ⟨rfl, rfl⟩
  · rintro ⟨⟨v, alg, mode⟩, nonce, salt, mke, mkn⟩ hv
    simp only at hv
    subst hv
    exact ⟨rfl, rfl⟩
  · intro alg mode salt resv nonce pad hs hr hn hp
    have := deserialize_layoutV1 alg mode salt resv nonce pad [] hs hr hn hp
    rwa [List.append_nil] at this
  · intro alg mode salt nonce pad1 pad2 hs hn hp1 hp2
    have := deserialize_layoutV2 alg mode salt nonce pad1 pad2 [] hs hn hp1 hp2
    rwa [List.append_nil] at this

/-- Witness for C7 at concrete V1 and V2 headers and buffers. -/
theorem spec_c7_witness :
    (Header.serialize ⟨⟨.V1, .Aes256Gcm, Mode.MemoryMode⟩, List.range 12, exSalt, none, none⟩
        = .error "Serializing V1 headers has been deprecated") ∧
    (Header.serialize ⟨⟨.V2, .XChaCha20Poly1305, Mode.MemoryMode⟩, List.range 24, exSalt,
        none, none⟩ = .error "Serializing V2 headers has been deprecated") ∧
    Header.deserialize exV1File
      = .ok (⟨⟨.V1, .Aes256Gcm, Mode.MemoryMode⟩, List.range 12, exSalt, none, none⟩, []) ∧
    Header.deserialize exV2File
      = .ok (⟨⟨.V2, .XChaCha20Poly1305, Mode.MemoryMode⟩, List.range 24, exSalt, none,
          none⟩, []) :=
  ⟨(spec_c7_v1v2_read_only.1 _ rfl).1,
    (spec_c7_v1v2_read_only.2.1 _ rfl).1,
    spec_c7_v1v2_read_only.2.2.1 .Aes256Gcm Mode.MemoryMode exSalt (List.replicate 16 0)
      (List.range 12) (List.replicate 14 0) rfl rfl rfl rfl,
    spec_c7_v1v2_read_only.2.2.2 .XChaCha20Poly1305 Mode.MemoryMode exSalt (List.range 24)
      (List.replicate 2 0) (List.replicate 16 0) rfl rfl rfl rfl⟩

/-- C10: deserialization never inspects the padding or reserved bytes — two
well-formed buffers of the same version differing only in those regions both
deserialize to headers with identical version, algorithm, mode, salt, nonce
and wrapped-key fields (nonzero padding is accepted), and for V3 and V4 the
returned AADs then differ between the two buffers, since the padding regions
are part of the AAD. -/
theorem spec_c10_padding_ignored :
    (∀ (alg : Algorithm) (mode : Mode) (salt resv resv2 nonce pad pad2 : List Nat),
      salt.length = 16 → resv.length = 16 → resv2.length = 16 →
      nonce.length = calcNonceLen ⟨.V1, alg, mode⟩ →
      pad.length = 26 - calcNonceLen ⟨.V1, alg, mode⟩ →
      pad2.length = 26 - calcNonceLen ⟨.V1, alg, mode⟩ →
      Header.deserialize (layoutV1 (serializeVersionTag .V1) alg mode salt resv nonce pad)
        = .ok (⟨⟨.V1, alg, mode⟩, nonce, salt, none, none⟩, []) ∧
      Header.deserialize (layoutV1 (serializeVersionTag .V1) alg mode salt resv2 nonce pad2)
        = .ok (⟨⟨.V1, alg, mode⟩, nonce, salt, none, none⟩, [])) ∧
    (∀ (alg : Algorithm) (mode : Mode) (salt nonce padA padA2 padB padB2 : List Nat),
      salt.length = 16 →
      nonce.length = calcNonceLen ⟨.V2, alg, mode⟩ →
      padA.length = 26 - calcNonceLen ⟨.V2, alg, mode⟩ →
      padA2.length = 26 - calcNonceLen ⟨.V2, alg, mode⟩ →
      padB.length = 16 → padB2.length = 16 →
      Header.deserialize (layoutV2 alg mode salt nonce padA padB)
        = .ok (⟨⟨.V2, alg, mode⟩, nonce, salt, none, none⟩, []) ∧
      Header.deserialize (layoutV2 alg mode salt nonce padA2 padB2)
        = .ok (⟨⟨.V2, alg, mode⟩, nonce, salt, none, none⟩, [])) ∧
    (∀ (alg : Algorithm) (mode : Mode) (salt resv resv2 nonce pad pad2 : List Nat),
      salt.length = 16 → resv.length = 16 → resv2.length = 16 →
      nonce.length = calcNonceLen ⟨.V3, alg, mode⟩ →
      pad.length = 26 - calcNonceLen ⟨.V3, alg, mode⟩ →
      pad2.length = 26 - calcNonceLen ⟨.V3, alg, mode⟩ →
      Header.deserialize (layoutV1 (serializeVersionTag .V3) alg mode salt resv nonce pad)
        = .ok (⟨⟨.V3, alg, mode⟩, nonce, salt, none, none⟩,
            layoutV1 (serializeVersionTag .V3) alg mode salt resv nonce pad) ∧
      Header.deserialize (layoutV1 (serializeVersionTag .V3) alg mode salt resv2 nonce pad2)
        = .ok (⟨⟨.V3, alg, mode⟩, nonce, salt, none, none⟩,
            layoutV1 (serializeVersionTag .V3) alg mode salt resv2 nonce pad2) ∧
      (resv ≠ resv2 →
        layoutV1 (serializeVersionTag .V3) alg mode salt resv nonce pad
          ≠ layoutV1 (serializeVersionTag .V3) alg mode salt resv2 nonce pad2)) ∧
    (∀ (alg : Algorithm) (mode : Mode) (salt nonce padA padA2 mke mkn padB padB2 : List Nat),
      salt.length = 16 →
      nonce.length = calcNonceLen ⟨.V4, alg, mode⟩ →
      padA.length = 26 - calcNonceLen ⟨.V4, alg, mode⟩ →
      padA2.length = 26 - calcNonceLen ⟨.V4, alg, mode⟩ →
      mke.length = 48 →
      mkn.length = calcNonceLen ⟨.V4, alg, Mode.MemoryMode⟩ →
      padB.length = 32 - calcNonceLen ⟨.V4, alg, Mode.MemoryMode⟩ →
      padB2.length = 32 - calcNonceLen ⟨.V4, alg, Mode.MemoryMode⟩ →
      Header.deserialize (layoutV4 alg mode salt nonce padA mke mkn padB)
        = .ok (⟨⟨.V4, alg, mode⟩, nonce, salt, some mke, some mkn⟩,
            (serializeVersionTag .V4 ++ serializeAlgorithmTag alg ++ serializeModeTag mode ++
              salt ++ nonce ++ padA) ++ padB) ∧
      Header.deserialize (layoutV4 alg mode salt nonce padA2 mke mkn padB2)
        = .ok (⟨⟨.V4, alg, mode⟩, nonce, salt, some mke, some mkn⟩,
            (serializeVersionTag .V4 ++ serializeAlgorithmTag alg ++ serializeModeTag mode ++
              salt ++ nonce ++ padA2) ++ padB2) ∧
      (padB ≠ padB2 →
        (serializeVersionTag .V4 ++ serializeAlgorithmTag alg ++ serializeModeTag mode ++
            salt ++ nonce ++ padA) ++ padB
          ≠ (serializeVersionTag .V4 ++ serializeAlgorithmTag alg ++ serializeModeTag mode ++
            salt ++ nonce ++ padA) ++ padB2)) := by
  refine ⟨?_, ?_, ?_, ?_⟩
  · intro alg mode salt resv resv2 nonce pad pad2 hs hr hr2 hn hp hp2
    constructor
    · have := deserialize_layoutV1 alg mode salt resv nonce pad [] hs hr hn hp
      rwa [List.append_nil] at this
    · have := deserialize_layoutV1 alg mode salt resv2 nonce pad2 [] hs hr2 hn hp2
      rwa [List.append_nil] at this
  · intro alg mode salt nonce padA padA2 padB padB2 hs hn hpA hpA2 hpB hpB2
    constructor
    · have := deserialize_layoutV2 alg mode salt nonce padA padB [] hs hn hpA hpB
      rwa [List.append_nil] at this
    · have := deserialize_layoutV2 alg mode salt nonce padA2 padB2 [] hs hn hpA2 hpB2
      rwa [List.append_nil] at this
  · intro alg mode salt resv resv2 nonce pad pad2 hs hr hr2 hn hp hp2
    have hvt : (serializeVersionTag HeaderVersion.V3).length = 2 := rfl
    refine ⟨?_, ?_, ?_⟩
    · have := deserialize_layoutV3 alg mode salt resv nonce pad [] hs hr hn hp
      rwa [List.append_nil] at this
    · have := deserialize_layoutV3 alg mode salt resv2 nonce pad2 [] hs hr2 hn hp2
      rwa [List.append_nil] at this
    · intro hne heq
      apply hne
      have h1 := layoutV1_slice_resv (serializeVersionTag .V3) alg mode salt resv nonce
        pad hvt hs hr
      have h2 := layoutV1_slice_resv (serializeVersionTag .V3) alg mode salt resv2 nonce
        pad2 hvt hs hr2
      rw [← h1, ← h2, heq]
  · intro alg mode salt nonce padA padA2 mke mkn padB padB2 hs hn hpA hpA2 hk hm hpB hpB2
    refine ⟨?_, ?_, ?_⟩
    · have := deserialize_layoutV4 alg mode salt nonce padA mke mkn padB [] hs hn hpA
        hk hm hpB
      rwa [List.append_nil] at this
    · have := deserialize_layoutV4 alg mode salt nonce padA2 mke mkn padB2 [] hs hn hpA2
        hk hm hpB2
      rwa [List.append_nil] at this
    · intro hne heq
      exact hne (List.append_cancel_left heq)

/-- Witness for C10: the V3 part at two concrete reserved regions, one zero
and one nonzero. -/
theorem spec_c10_witness :
    Header.deserialize (layoutV1 (serializeVersionTag .V3) .Aes256Gcm Mode.MemoryMode
        exSalt (List.replicate 16 0) (List.range 12) (List.replicate 14 0))
      = .ok (⟨⟨.V3, .Aes256Gcm, Mode.MemoryMode⟩, List.range 12, exSalt, none, none⟩,
          layoutV1 (serializeVersionTag .V3) .Aes256Gcm Mode.MemoryMode exSalt
            (List.replicate 16 0) (List.range 12) (List.replicate 14 0)) ∧
    Header.deserialize (layoutV1 (serializeVersionTag .V3) .Aes256Gcm Mode.MemoryMode
        exSalt (List.replicate 16 1) (List.range 12) (List.replicate 14 0))
      = .ok (⟨⟨.V3, .Aes256Gcm, Mode.MemoryMode⟩, List.range 12, exSalt, none, none⟩,
          layoutV1 (serializeVersionTag .V3) .Aes256Gcm Mode.MemoryMode exSalt
            (List.replicate 16 1) (List.range 12) (List.replicate 14 0)) ∧
    (List.replicate 16 (0 : Nat) ≠ List.replicate 16 1 →
      layoutV1 (serializeVersionTag .V3) .Aes256Gcm Mode.MemoryMode exSalt
          (List.replicate 16 0) (List.range 12) (List.replicate 14 0)
        ≠ layoutV1 (serializeVersionTag .V3) .Aes256Gcm Mode.MemoryMode exSalt
          (List.replicate 16 1) (List.range 12) (List.replicate 14 0)) :=
  spec_c10_padding_ignored.2.2.1 .Aes256Gcm Mode.MemoryMode exSalt (List.replicate 16 0)
    (List.replicate 16 1) (List.range 12) (List.replicate 14 0) (List.replicate 14 0)
    rfl rfl rfl rfl rfl rfl

end Dexios

namespace Dexios

/-- C2: round-trip in memory mode — for every algorithm, plaintext and raw
key (and any salt, data nonce, master key and master-key nonce of the
lengths the pipeline generates), decrypting the output of memory-mode
encryption with the same raw key and the header it produced yields exactly
the original plaintext. -/
theorem spec_c2_roundtrip_memory :
    ∀ (alg : Algorithm) (plaintext rawKey salt dataNonce masterKey mkNonce : List Nat),
      salt.length = 16 →
      dataNonce.length = calcNonceLen ⟨.V4, alg, Mode.MemoryMode⟩ →
      masterKey.length = 32 →
      mkNonce.length = calcNonceLen ⟨.V4, alg, Mode.MemoryMode⟩ →
      ∃ out,
        encryptBytesMemoryMode alg plaintext rawKey salt dataNonce masterKey mkNonce
          = .ok out ∧
        decryptBytesMemoryMode out rawKey = .ok plaintext := by
  intro alg plaintext rawKey salt dataNonce masterKey mkNonce hs hdn hmk hmkn
  have hwlen : (cipherEncrypt alg (balloonHash rawKey salt) mkNonce [] masterKey).length
      = 48 := by rw [length_cipherEncrypt, hmk]
  refine ⟨Header.serializeV4 ⟨⟨.V4, alg, Mode.MemoryMode⟩, dataNonce, salt,
      some (cipherEncrypt alg (balloonHash rawKey salt) mkNonce [] masterKey),
      some mkNonce⟩ ++
    cipherEncrypt alg masterKey dataNonce
      (Header.tagBytes ⟨⟨.V4, alg, Mode.MemoryMode⟩, dataNonce, salt,
        some (cipherEncrypt alg (balloonHash rawKey salt) mkNonce [] masterKey),
        some mkNonce⟩ ++ salt ++ dataNonce ++
        List.replicate (26 - calcNonceLen ⟨.V4, alg, Mode.MemoryMode⟩) 0 ++
        List.replicate (32 - calcNonceLen ⟨.V4, alg, Mode.MemoryMode⟩) 0) plaintext,
    rfl, ?_⟩
  unfold decryptBytesMemoryMode
  rw [serializeV4_mk]
  rw [deserialize_layoutV4 alg Mode.MemoryMode salt dataNonce
    (List.replicate (26 - calcNonceLen ⟨.V4, alg, Mode.MemoryMode⟩) 0)
    (cipherEncrypt alg (balloonHash rawKey salt) mkNonce [] masterKey) mkNonce
    (List.replicate (32 - calcNonceLen ⟨.V4, alg, Mode.MemoryMode⟩) 0)
    (cipherEncrypt alg masterKey dataNonce
      (Header.tagBytes ⟨⟨.V4, alg, Mode.MemoryMode⟩, dataNonce, salt,
        some (cipherEncrypt alg (balloonHash rawKey salt) mkNonce [] masterKey),
        some mkNonce⟩ ++ salt ++ dataNonce ++
        List.replicate (26 - calcNonceLen ⟨.V4, alg, Mode.MemoryMode⟩) 0 ++
        List.replicate (32 - calcNonceLen ⟨.V4, alg, Mode.MemoryMode⟩) 0) plaintext)
    hs hdn (by simp) hwlen hmkn (by simp)]
  simp only [cipherDecrypt_cipherEncrypt]
  simp only [Header.getSize, headerLength]
  have hdrop : ∀ tail : List Nat, (layoutV4 alg Mode.MemoryMode salt dataNonce
      (List.replicate (26 - calcNonceLen ⟨.V4, alg, Mode.MemoryMode⟩) 0)
      (cipherEncrypt alg (balloonHash rawKey salt) mkNonce [] masterKey) mkNonce
      (List.replicate (32 - calcNonceLen ⟨.V4, alg, Mode.MemoryMode⟩) 0) ++ tail).drop 128
      = tail := fun tail =>
    List.drop_left' (layoutV4_length alg Mode.MemoryMode salt dataNonce _ _ mkNonce _
      hs hdn (by simp) hwlen hmkn (by simp))
  rw [hdrop]
  exact cipherDecrypt_cipherEncrypt alg masterKey dataNonce _ plaintext

/-- Witness for C2 at a concrete plaintext and key. -/
theorem spec_c2_witness :
    (exSalt.length = 16 ∧
      exNonce24.length = calcNonceLen ⟨.V4, .XChaCha20Poly1305, Mode.MemoryMode⟩ ∧
      exMasterKey.length = 32) ∧
    (∃ out, encryptBytesMemoryMode .XChaCha20Poly1305 [104, 105] exRawKey exSalt
        exNonce24 exMasterKey exNonce24 = .ok out ∧
      decryptBytesMemoryMode out exRawKey = .ok [104, 105]) :=
  ⟨⟨rfl, rfl, rfl⟩,
    spec_c2_roundtrip_memory .XChaCha20Poly1305 [104, 105] exRawKey exSalt exNonce24
      exMasterKey exNonce24 rfl rfl rfl rfl⟩

end Dexios

namespace Dexios

theorem updateKey_pre_v4 (bytes : List Nat) (h : Header) (aad ro rn nn : List Nat)
    (hde : Header.deserialize bytes = .ok (h, aad))
    (hv : h.headerType.version ≠ .V4) :
    updateKey bytes ro rn nn
      = .error "Updating a key is not supported in header versions below V4." := by
  rcases h with ⟨⟨v, alg, mode⟩, nonce, salt, mke, mkn⟩
  unfold updateKey
  rw [hde]
  cases v with
  | V1 => rfl
  | V2 => rfl
  | V3 => rfl
  | V4 => exact absurd rfl hv

set_option maxHeartbeats 1000000 in
theorem updateKey_layoutV4 (alg : Algorithm) (mode : Mode)
    (salt nonce pad1 mke mkn pad2 rest ro rn nn : List Nat)
    (hs : salt.length = 16)
    (hn : nonce.length = calcNonceLen ⟨.V4, alg, mode⟩)
    (hp1 : pad1.length = 26 - calcNonceLen ⟨.V4, alg, mode⟩)
    (hk : mke.length = 48)
    (hm : mkn.length = calcNonceLen ⟨.V4, alg, Mode.MemoryMode⟩)
    (hp2 : pad2.length = 32 - calcNonceLen ⟨.V4, alg, Mode.MemoryMode⟩)
    (hnn : nn.length = calcNonceLen ⟨.V4, alg, Mode.MemoryMode⟩) :
    updateKey (layoutV4 alg mode salt nonce pad1 mke mkn pad2 ++ rest) ro rn nn
      = match cipherDecrypt alg (balloonHash ro salt) mkn [] mke with
        | .error _ =>
          .error "Unable to decrypt your master key (maybe you supplied a wrong key?)"
        | .ok mkDec =>
          .ok (Header.serializeV4 ⟨⟨.V4, alg, mode⟩, nonce, salt,
              some (cipherEncrypt alg (balloonHash rn salt) nn []
                ((mkDec ++ List.replicate (32 - mkDec.length) 0).take 32)),
              some nn⟩ ++ rest) := by
  unfold updateKey
  rw [deserialize_layoutV4 alg mode salt nonce pad1 mke mkn pad2 rest hs hn hp1 hk hm hp2]
  simp only [HeaderVersion.num, Header.serialize]
  cases hcd : cipherDecrypt alg (balloonHash ro salt) mkn [] mke with
  | error e => rfl
  | ok mkDec =>
    have hmlen : ((mkDec ++ List.replicate (32 - mkDec.length) 0).take 32).length
        = 32 := by
      simp [List.length_take]
      omega
    have hserlen : (Header.serializeV4 ⟨⟨.V4, alg, mode⟩, nonce, salt,
        some (cipherEncrypt alg (balloonHash rn salt) nn []
          ((mkDec ++ List.replicate (32 - mkDec.length) 0).take 32)),
        some nn⟩).length = 128 := by
      rw [serializeV4_mk]
      exact layoutV4_length alg mode salt nonce _ _ nn _ hs hn (by simp)
        (by rw [length_cipherEncrypt, hmlen]) hnn (by simp)
    have hdrop : (layoutV4 alg mode salt nonce pad1 mke mkn pad2 ++ rest).drop 128
        = rest :=
      List.drop_left' (layoutV4_length alg mode salt nonce pad1 mke mkn pad2
        hs hn hp1 hk hm hp2)
    simp only [hserlen, hdrop]
    rw [if_neg (by decide : ¬ (4:Nat) < 4)]

/-- C6: key rotation is a pure re-wrap. For every buffer parsing as a header
below V4, update_key fails with the unsupported-operation error without
writing (the model returns the error and no file contents). For every file
beginning with a well-formed V4 header, a successful update_key writes back
a header with the same version, algorithm, mode, salt and data nonce,
changing only the wrapped master key and its nonce, leaves the rest of the
file untouched, and the data AAD (create_aad) of the new header equals that
of the old one. -/
theorem spec_c6_update_key_frame :
    (∀ (bytes : List Nat) (h : Header) (aad ro rn nn : List Nat),
      Header.deserialize bytes = .ok (h, aad) → h.headerType.version ≠ .V4 →
      updateKey bytes ro rn nn
        = .error "Updating a key is not supported in header versions below V4.") ∧
    (∀ (alg : Algorithm) (mode : Mode)
      (salt nonce pad1 mke mkn pad2 rest ro rn nn out : List Nat),
      salt.length = 16 → nonce.length = calcNonceLen ⟨.V4, alg, mode⟩ →
      pad1.length = 26 - calcNonceLen ⟨.V4, alg, mode⟩ → mke.length = 48 →
      mkn.length = calcNonceLen ⟨.V4, alg, Mode.MemoryMode⟩ →
      pad2.length = 32 - calcNonceLen ⟨.V4, alg, Mode.MemoryMode⟩ →
      nn.length = calcNonceLen ⟨.V4, alg, Mode.MemoryMode⟩ →
      updateKey (layoutV4 alg mode salt nonce pad1 mke mkn pad2 ++ rest) ro rn nn
        = .ok out →
      ∃ mkeNew,
        out = Header.serializeV4 ⟨⟨.V4, alg, mode⟩, nonce, salt, some mkeNew, some nn⟩
          ++ rest ∧
        Header.createAad ⟨⟨.V4, alg, mode⟩, nonce, salt, some mkeNew, some nn⟩
          = Header.createAad ⟨⟨.V4, alg, mode⟩, nonce, salt, some mke, some mkn⟩) := by
  constructor
  · exact fun bytes h aad ro rn nn hde hv => updateKey_pre_v4 bytes h aad ro rn nn hde hv
  · intro alg mode salt nonce pad1 mke mkn pad2 rest ro rn nn out
      hs hn hp1 hk hm hp2 hnn hupd
    rw [updateKey_layoutV4 alg mode salt nonce pad1 mke mkn pad2 rest ro rn nn
      hs hn hp1 hk hm hp2 hnn] at hupd
    rcases hcd : cipherDecrypt alg (balloonHash ro salt) mkn [] mke with e | mkDec
    · rw [hcd] at hupd
      simp at hupd
    · rw [hcd] at hupd
      simp only [Except.ok.injEq] at hupd
      exact ⟨cipherEncrypt alg (balloonHash rn salt) nn []
        ((mkDec ++ List.replicate (32 - mkDec.length) 0).take 32), hupd.symm, rfl⟩

set_option maxRecDepth 16384 in
set_option maxHeartbeats 16000000 in
/-- Witness for C6: a concrete V3 file is refused, and a concrete V4 file is
rewritten with only the wrapped-key fields changed. -/
theorem spec_c6_witness :
    (Header.deserialize exV3File = .ok (exV3Parsed, exV3File) ∧
      updateKey exV3File exRawKey [9, 9] exNonce24
        = .error "Updating a key is not supported in header versions below V4.") ∧
    (∃ mkeNew,
      exUpdOut = Header.serializeV4 ⟨⟨.V4, .XChaCha20Poly1305, Mode.MemoryMode⟩,
          exNonce24, exSalt, some mkeNew, some exNonce24⟩ ++ [] ∧
      Header.createAad ⟨⟨.V4, .XChaCha20Poly1305, Mode.MemoryMode⟩, exNonce24, exSalt,
          some mkeNew, some exNonce24⟩
        = Header.createAad ⟨⟨.V4, .XChaCha20Poly1305, Mode.MemoryMode⟩, exNonce24, exSalt,
            some exWrappedMk, some exNonce24⟩) := by
  refine ⟨⟨by decide, ?_⟩, ?_⟩
  · exact spec_c6_update_key_frame.1 exV3File exV3Parsed exV3File
      exRawKey [9, 9] exNonce24 (by decide) (by decide)
  · exact spec_c6_update_key_frame.2 .XChaCha20Poly1305 Mode.MemoryMode exSalt exNonce24
      (List.replicate 2 0) exWrappedMk exNonce24 (List.replicate 8 0) [] exRawKey [9, 9]
      exNonce24 exUpdOut rfl rfl rfl rfl rfl rfl rfl (by decide)

end Dexios

namespace Dexios

/-- C5: stream-mode encryption block structure. For every input, the block
loop of encrypt_bytes_stream_mode makes exactly floor(L / BLOCK_SIZE)
encrypt_next calls, each producing BLOCK_SIZE + 16 bytes of ciphertext,
followed by exactly one final encrypt_last call on the remaining
L mod BLOCK_SIZE bytes producing (L mod BLOCK_SIZE) + 16 bytes — in
particular, when L is an exact multiple of BLOCK_SIZE the single trailing
element is the encrypt_last output on an empty tail, of length 16. Each
element records whether it came from encrypt_last and its byte length. -/
theorem spec_c5_stream_block_structure (st : StreamState) (aad data : List Nat) :
    (encryptStreamLoop st aad data).map (fun c => (c.1, c.2.length))
      = List.replicate (data.length / BLOCK_SIZE) (false, BLOCK_SIZE + 16)
        ++ [(true, data.length % BLOCK_SIZE + 16)] :=
  encryptStreamLoop_blocks_aux data.length data st aad le_rfl

set_option maxRecDepth 16384 in
/-- C8 (code bug in dump/strip): both subcommands use a fixed 64-byte
window. At a concrete file holding a valid 128-byte V4 header, dump refuses
the file (its first 64 bytes do not parse as a complete header), and strip
zeroes bytes [64..128) — the seek back is only 64 from position 128 —
leaving the first 64 bytes, including the DE 04 version tag, intact. At a
concrete V3 file both work on the first 64 bytes as the claim states. -/
theorem spec_c8_dump_strip_64 :
    dump exV4File = .error "File does not contain a valid Dexios header - exiting" ∧
    strip exV4File = .ok (exV4File.take 64 ++ List.replicate 64 0) ∧
    (exV4File.take 64 ++ List.replicate 64 0).take 2 = [0xDE, 0x04] ∧
    exV4File.length = 128 ∧
    dump exV3File = .ok exV3File ∧
    strip exV3File = .ok (List.replicate 64 0 ++ exV3File.drop 64) := by
  refine ⟨by decide, by decide, by decide, by decide, by decide, by decide⟩

/-- C9 (code bug in Header::write): the serialized bytes are handed to a
single Write::write call whose count is ignored, so a writer that accepts
only 10 of the 64 serialized bytes of a V3 header still yields success with
10 bytes written. -/
theorem spec_c9_short_write_succeeds :
    Header.write exV3Header 10 = .ok ((Header.serializeV3 exV3Header).take 10) ∧
    (Header.serializeV3 exV3Header).length = 64 ∧
    ((Header.serializeV3 exV3Header).take 10).length = 10 := by
  refine ⟨by decide, by decide, by decide⟩

end Dexios
